import Mathlib

/-!
# Verification of the Netivot address-resolution engine

Shallow embedding of the address normalization, spatial-index lookup,
ensemble geocoding and status-classification code of the Coordinates
repository (src/services/normalization.ts, gisService, hybridGeocoder,
rowProcessor), together with theorems settling the specification claims.

Numeric values are modelled as rationals; JavaScript regular expressions
are modelled by executable matchers that reproduce the engine semantics
actually relevant here, including the JS `\b` word-boundary rule (a
boundary holds iff exactly one neighbour is in `[A-Za-z0-9_]`; Hebrew
letters are not word characters).  Whitespace is the ASCII whitespace
subset, which covers every string the pipeline manipulates.
-/

namespace Coordinates

/-! ## Character classes and basic string helpers -/

def isWsChar (c : Char) : Bool :=
  c = ' ' || c = '\t' || c = '\n' || c = '\r'

def isDigitChar (c : Char) : Bool :=
  '0' ≤ c && c ≤ '9'

/-- JS regex word-character class `\w` = `[A-Za-z0-9_]`. -/
def isWordChar (c : Char) : Bool :=
  ('a' ≤ c && c ≤ 'z') || ('A' ≤ c && c ≤ 'Z') || isDigitChar c || c = '_'

def isHebrewLetter (c : Char) : Bool :=
  'א' ≤ c && c ≤ 'ת'

def isLatinUpper (c : Char) : Bool :=
  'A' ≤ c && c ≤ 'Z'

def toLowerLatin (c : Char) : Char :=
  if isLatinUpper c then Char.ofNat (c.toNat + 32) else c

/-- Separator class of the regex `[-\s]`. -/
def isSepChar (c : Char) : Bool :=
  c = '-' || isWsChar c

def apostropheChar : Char := Char.ofNat 39

def jsTrimLeft (l : List Char) : List Char :=
  l.dropWhile isWsChar

def jsTrimRight (l : List Char) : List Char :=
  (l.reverse.dropWhile isWsChar).reverse

def jsTrimList (l : List Char) : List Char :=
  jsTrimRight (jsTrimLeft l)

def jsTrim (s : String) : String :=
  ⟨jsTrimList s.data⟩

/-- `replace(/\s+/g, " ")`: each maximal whitespace run becomes one
space.  The Boolean records whether the previous character was
whitespace (single-pass structural formulation). -/
def collapseWsAux : Bool → List Char → List Char
  | _, [] => []
  | prevWs, c :: rest =>
    if isWsChar c then
      if prevWs then collapseWsAux true rest else ' ' :: collapseWsAux true rest
    else c :: collapseWsAux false rest

def collapseWs (l : List Char) : List Char :=
  collapseWsAux false l

/-- `replace(/,+/g, ",")`: each maximal comma run becomes one comma. -/
def collapseCommasAux : Bool → List Char → List Char
  | _, [] => []
  | prevComma, c :: rest =>
    if c = ',' then
      if prevComma then collapseCommasAux true rest
      else ',' :: collapseCommasAux true rest
    else c :: collapseCommasAux false rest

def collapseCommas (l : List Char) : List Char :=
  collapseCommasAux false l

/-- One attempted match of `\s*,\s*` at the current position: whitespace
run, a comma, whitespace run; returns the remainder on success. -/
def commaSpacingMatch (l : List Char) : Option (List Char) :=
  match l.dropWhile isWsChar with
  | ',' :: r2 => some (r2.dropWhile isWsChar)
  | _ => none

/-- `replace(/\s*,\s*/g, ", ")`: any comma with surrounding whitespace
becomes a comma followed by a single space (fuelled; each match consumes
at least the comma, so the string length suffices as fuel). -/
def replCommaSpacingF : Nat → List Char → List Char
  | 0, l => l
  | _ + 1, [] => []
  | fuel + 1, c :: rest =>
    match commaSpacingMatch (c :: rest) with
    | some rem => ',' :: ' ' :: replCommaSpacingF fuel rem
    | none => c :: replCommaSpacingF fuel rest

def replCommaSpacing (l : List Char) : List Char :=
  replCommaSpacingF (l.length + 1) l

/-! ## A small matcher for the JS regular expressions used in the source

Pieces cover exactly the constructs appearing in the source regexes:
literals, greedy character-class stars/pluses (with backtracking),
optional characters, word boundaries (`\b`) and the end anchor (`$`).
Greedy-longest-first search with backtracking reproduces the JS engine's
leftmost match.  All pattern literals here are nonempty, so matches
always consume at least one character. -/

inductive RPiece where
  | lit (l : List Char)
  | clsStar (cls : Char → Bool)
  | clsPlus (cls : Char → Bool)
  | optC (c : Char)
  | optCls (cls : Char → Bool)
  | wb
  | eos

/-- JS `\b`: holds iff exactly one of the two neighbouring characters is
a word character (a missing neighbour counts as non-word). -/
def boundaryOk (prev : Option Char) (next : Option Char) : Bool :=
  (match prev with | some c => isWordChar c | none => false)
    != (match next with | some c => isWordChar c | none => false)

/-- All states reachable by consuming a (possibly empty) run of class
characters, longest first; each state is (last consumed char, rest). -/
def starStates (cls : Char → Bool) : Option Char → List Char → List (Option Char × List Char)
  | prev, [] => [(prev, [])]
  | prev, c :: rest =>
    if cls c then starStates cls (some c) rest ++ [(prev, c :: rest)]
    else [(prev, c :: rest)]

def lastOr (l : List Char) (prev : Option Char) : Option Char :=
  match l.getLast? with
  | some c => some c
  | none => prev

/-- Match a piece list at the current position; `prev` is the character
immediately before the position (for `\b`).  Returns the last consumed
character and the remainder on success, exploring greedy-first with
backtracking like the JS engine.  Fuelled by the number of pieces
(each step consumes exactly one piece). -/
def matchPiecesF : Nat → List RPiece → Option Char → List Char →
    Option (Option Char × List Char)
  | 0, _, _, _ => none
  | _ + 1, [], prev, s => some (prev, s)
  | fuel + 1, .lit l :: ps, prev, s =>
    if l.isPrefixOf s then matchPiecesF fuel ps (lastOr l prev) (s.drop l.length) else none
  | fuel + 1, .clsStar cls :: ps, prev, s =>
    (starStates cls prev s).findSome? (fun st => matchPiecesF fuel ps st.1 st.2)
  | fuel + 1, .clsPlus cls :: ps, prev, s =>
    ((starStates cls prev s).dropLast).findSome? (fun st => matchPiecesF fuel ps st.1 st.2)
  | fuel + 1, .optC c :: ps, prev, s =>
    match s with
    | x :: rest =>
      if x = c then
        match matchPiecesF fuel ps (some x) rest with
        | some r => some r
        | none => matchPiecesF fuel ps prev (x :: rest)
      else matchPiecesF fuel ps prev (x :: rest)
    | [] => matchPiecesF fuel ps prev []
  | fuel + 1, .optCls cls :: ps, prev, s =>
    match s with
    | x :: rest =>
      if cls x then
        match matchPiecesF fuel ps (some x) rest with
        | some r => some r
        | none => matchPiecesF fuel ps prev (x :: rest)
      else matchPiecesF fuel ps prev (x :: rest)
    | [] => matchPiecesF fuel ps prev []
  | fuel + 1, .wb :: ps, prev, s =>
    if boundaryOk prev s.head? then matchPiecesF fuel ps prev s else none
  | fuel + 1, .eos :: ps, prev, s =>
    match s with
    | [] => matchPiecesF fuel ps prev []
    | _ :: _ => none

def matchPieces (ps : List RPiece) (prev : Option Char) (s : List Char) :
    Option (Option Char × List Char) :=
  matchPiecesF (ps.length + 1) ps prev s

/-- Unanchored regex test (`pattern.test(s)`). -/
def searchFrom (pat : List RPiece) : Option Char → List Char → Bool
  | prev, [] => (matchPieces pat prev []).isSome
  | prev, c :: rest =>
    (matchPieces pat prev (c :: rest)).isSome || searchFrom pat (some c) rest

def searchMatch (pat : List RPiece) (l : List Char) : Bool :=
  searchFrom pat none l

/-- Global replace (`replace(pat, repl)` with the `g` flag): scan left to
right over the original string, replacing each match and resuming after
its end.  Fuelled by the string length; every pattern used here consumes
at least one character per match. -/
def replaceScan (pat : List RPiece) (repl : List Char) : Nat → Option Char → List Char → List Char
  | 0, _, s => s
  | _ + 1, _, [] => []
  | fuel + 1, prev, c :: rest =>
    match matchPieces pat prev (c :: rest) with
    | some (last, rem) =>
      if rem.length < (c :: rest).length then
        repl ++ replaceScan pat repl fuel last rem
      else
        c :: replaceScan pat repl fuel (some c) rest
    | none => c :: replaceScan pat repl fuel (some c) rest

def replaceAllPat (pat : List RPiece) (repl : List Char) (l : List Char) : List Char :=
  replaceScan pat repl (l.length + 1) none l

/-! ## Text Normalizer (src/services/normalization.ts) -/

/-- `normalizeWhitespaceAndCommas`: collapse whitespace, collapse commas,
normalize comma spacing, trim. -/
def normalizeWhitespaceAndCommasL (l : List Char) : List Char :=
  jsTrimList (replCommaSpacing (collapseCommas (collapseWs l)))

def normalizeWhitespaceAndCommas (s : String) : String :=
  ⟨normalizeWhitespaceAndCommasL s.data⟩

/-- Characters the street normalizer converts to spaces:
hyphen, en dash, em dash, slash, backslash. -/
def isStreetSepChar (c : Char) : Bool :=
  c = '-' || c = '–' || c = '—' || c = '/' || c = '\\'

/-- Quote characters removed by the street normalizer: ", ', ׳, ״. -/
def isQuoteChar (c : Char) : Bool :=
  c = '\"' || c = apostropheChar || c = '׳' || c = '״'

/-- Pattern `\bרח'` (the apostrophe written via its code point). -/
def rehAbbrevPat : List RPiece :=
  [.wb, .lit ('ר' :: 'ח' :: [apostropheChar])]

/-- Pattern `\bשכ'`. -/
def shcAbbrevPat : List RPiece :=
  [.wb, .lit ('ש' :: 'כ' :: [apostropheChar])]

/-- Strip one anchored leading token `tok` followed by `\s+`
(regex `^tok\s+`, applied once since it is anchored). -/
def stripLeadingToken (tok : List Char) (l : List Char) : List Char :=
  if tok.isPrefixOf l then
    let rest := l.drop tok.length
    let ws := rest.takeWhile isWsChar
    if ws = [] then l else rest.dropWhile isWsChar
  else l

/-- `normalizeStreetText` on character lists, mirroring the source steps:
trim/collapse, separators to spaces, quote removal, Hebrew abbreviation
expansion, leading street-prefix removal, recollapse, Latin lowercasing. -/
def normalizeStreetTextL (input : List Char) : List Char :=
  let n1 := collapseWs (jsTrimList input)
  let n2 := n1.map (fun c => if isStreetSepChar c then ' ' else c)
  let n3 := n2.filter (fun c => !isQuoteChar c)
  let n4 := replaceAllPat rehAbbrevPat "רחוב".data n3
  let n5 := replaceAllPat shcAbbrevPat "שכונת".data n4
  let n6 := stripLeadingToken "רחוב".data n5
  let n7 := stripLeadingToken "רח".data n6
  let n8 := jsTrimList (collapseWs n7)
  n8.map toLowerLatin

def normalizeStreetText (input : String) : String :=
  ⟨normalizeStreetTextL input.data⟩

/-- Replacement dictionary of `applyReplacementDictionary`:
variants of west-Netivot collapse to the city name, plus one street
spelling fix.  All three regexes carry `\b` on both sides. -/
def applyReplacementDictionaryL (l : List Char) : List Char :=
  let p1 : List RPiece := [.wb, .lit "מערב".data, .clsStar isSepChar, .lit "נתיבות".data, .wb]
  let p2 : List RPiece := [.wb, .lit "נתיבות".data, .clsStar isSepChar, .lit "מערב".data, .wb]
  let p3 : List RPiece := [.wb, .lit "תילתן".data, .wb]
  let r1 := replaceAllPat p1 "נתיבות".data l
  let r2 := replaceAllPat p2 "נתיבות".data r1
  replaceAllPat p3 "תלתן".data r2

def applyReplacementDictionary (s : String) : String :=
  ⟨applyReplacementDictionaryL s.data⟩

/-- `stripStreetPrefixes`: regex `^\s*(רחוב|רח'|רח)\s+` (alternatives in
source order), replaced once by the empty string. -/
def stripStreetPrefixesL (l : List Char) : List Char :=
  let r := l.dropWhile isWsChar
  let tryTok : List Char → Option (List Char) := fun tok =>
    if tok.isPrefixOf r then
      let rest := r.drop tok.length
      if rest.takeWhile isWsChar = [] then none else some (rest.dropWhile isWsChar)
    else none
  match tryTok "רחוב".data with
  | some r' => r'
  | none =>
    match tryTok ('ר' :: 'ח' :: [apostropheChar]) with
    | some r' => r'
    | none =>
      match tryTok "רח".data with
      | some r' => r'
      | none => l

def stripStreetPrefixes (s : String) : String :=
  ⟨stripStreetPrefixesL s.data⟩

/-- `\bA\b` neighborhood literal pattern. -/
def wbLit (s : String) : List RPiece :=
  [.wb, .lit s.data, .wb]

/-- `\bA[-\s]*B\b` neighborhood pattern. -/
def wbLitSep (a b : String) : List RPiece :=
  [.wb, .lit a.data, .clsStar isSepChar, .lit b.data, .wb]

/-- The `NEIGHBORHOOD_PATTERNS` array, in source order. -/
def neighborhoodPatterns : List (List RPiece) :=
  [ wbLit "נווה נוי", wbLitSep "נווה" "נוי", wbLit "נוה נוי", wbLit "נ\"י",
    wbLit "נווה שרון", wbLitSep "נווה" "שרון", wbLit "נוה שרון",
    wbLit "שכונת נווה שרון", wbLit "נ\"ש",
    wbLit "קרית מנחם", wbLit "קריית מנחם", wbLitSep "קרית" "מנחם", wbLit "קמ",
    wbLit "מערב נתיבות", wbLit "נתיבות מערב", wbLitSep "מערב" "נתיבות",
    wbLit "השכונה המערבית", wbLit "שכונה מערבית", wbLit "ש\"מ",
    wbLit "שכונת החורש",
    [.wb, .lit "שכו".data, .optC apostropheChar, .optC ' ', .lit "החורש".data, .wb],
    [.wb, .lit "שכ".data, .optC apostropheChar, .optC ' ', .lit "החורש".data, .wb],
    wbLit "החורשה", wbLit "החורש", wbLit "חורש",
    wbLit "נטעים נתיבות", wbLit "אזור נטעים", wbLit "שכונת נטעים",
    wbLitSep "נטעים" "נתיבות", wbLit "נטעים",
    wbLit "נווה אביב", wbLit "נוה אביב", wbLit "שכונת נווה אביב", wbLit "אביב נתיבות",
    wbLit "יוספטל דרום", wbLit "שכונת יוספטל", wbLit "יוספטל", wbLit "ש\"י",
    wbLit "גבעת בית ואן", wbLit "בית ואן", wbLit "גבעת בון",
    wbLit "רמות יורם", wbLit "שכונת רמות יורם", wbLit "יורם" ]

/-- `stripNeighborhoodTokens`: apply each neighborhood pattern in order,
replacing matches with a space, then re-normalize whitespace/commas. -/
def stripNeighborhoodTokensL (l : List Char) : List Char :=
  normalizeWhitespaceAndCommasL
    (neighborhoodPatterns.foldl (fun acc p => replaceAllPat p [' '] acc) l)

def stripNeighborhoodTokens (s : String) : String :=
  ⟨stripNeighborhoodTokensL s.data⟩

/-- The city token. -/
def cityTok : List Char := "נתיבות".data

/-- Substring containment test (`/needle/.test(hay)` for a literal). -/
def containsSub (needle hay : List Char) : Bool :=
  (List.range (hay.length + 1)).any (fun i => needle.isPrefixOf (hay.drop i))

/-- `lastIndexOf` of a literal substring. -/
def lastIndexOfSub (needle hay : List Char) : Option Nat :=
  (List.range (hay.length + 1)).foldl
    (fun acc i => if needle.isPrefixOf (hay.drop i) then some i else acc) none

def digitsToNat (l : List Char) : Nat :=
  l.foldl (fun acc c => acc * 10 + (c.toNat - '0'.toNat)) 0

/-- Parse the tail of the range regex `\s+(\d+)\s*-\s*(\d+)\s*$`. -/
def parseRangeTail (t : List Char) : Option (Nat × Nat) :=
  let ws1 := t.takeWhile isWsChar
  if ws1 = [] then none else
  let t1 := t.dropWhile isWsChar
  let d1 := t1.takeWhile isDigitChar
  if d1 = [] then none else
  let t2 := (t1.drop d1.length).dropWhile isWsChar
  match t2 with
  | '-' :: t3 =>
    let t4 := t3.dropWhile isWsChar
    let d2 := t4.takeWhile isDigitChar
    if d2 = [] then none else
    if (t4.drop d2.length).dropWhile isWsChar = [] then some (digitsToNat d1, digitsToNat d2)
    else none
  | _ => none

/-- Range regex `^(.+?)\s+(\d+)\s*-\s*(\d+)\s*$`: the lazy group takes the
first split whose tail parses; returns (group 1, start, end). -/
def matchRangeSplit (l : List Char) : Option (List Char × Nat × Nat) :=
  (List.range l.length).findSome? (fun i =>
    if i = 0 then none else
    match parseRangeTail (l.drop i) with
    | some (a, b) => some (l.take i, a, b)
    | none => none)

/-- Apartment-suffix regex `(\d+)\s*\/\s*\d+\s*$` replaced by group 1:
find the leftmost digit run followed by `/`, digits and optional
whitespace up to the end; keep the prefix plus the first digit group. -/
def replApartment (l : List Char) : List Char :=
  match (List.range l.length).findSome? (fun i =>
    let t := l.drop i
    match t with
    | c :: _ =>
      if isDigitChar c then
        let d1 := t.takeWhile isDigitChar
        let t2 := (t.drop d1.length).dropWhile isWsChar
        match t2 with
        | '/' :: t3 =>
          let t4 := t3.dropWhile isWsChar
          let d2 := t4.takeWhile isDigitChar
          if d2 = [] then none else
          if (t4.drop d2.length).dropWhile isWsChar = [] then some (l.take i ++ d1)
          else none
        | _ => none
      else none
    | [] => none) with
  | some r => r
  | none => l

/-- Regex `^(.*\d+)`: keep everything up to and including the last digit;
if the string has no digit the regex fails and the string is unchanged. -/
def upToLastDigit (l : List Char) : List Char :=
  if l.any isDigitChar then (l.reverse.dropWhile (fun c => !isDigitChar c)).reverse
  else l

/-- Final split regex `^(.+?)\s+(\d+)\s*$`: house number is the trailing
digit run, street is everything before the whitespace run preceding it. -/
def splitStreetNumber (l : List Char) : Option (List Char × List Char) :=
  let r := l.reverse
  let r1 := r.dropWhile isWsChar
  let dsRev := r1.takeWhile isDigitChar
  if dsRev = [] then none else
  let r2 := r1.drop dsRev.length
  let wsRev := r2.takeWhile isWsChar
  if wsRev = [] then none else
  let street := (r2.drop wsRev.length).reverse
  if street = [] then none else
  some (street, dsRev.reverse)

/-- The first reassignments of `normalizeAddress` (normalization.ts):
trim, whitespace/comma normalization, replacement dictionary and
street-prefix strip (the variable `normalized` just before the
city-token check). -/
def cleanedAddress (raw : String) : List Char :=
  stripStreetPrefixesL (applyReplacementDictionaryL
    (normalizeWhitespaceAndCommasL (jsTrimList raw.data)))

/-- The `addressPart` of `normalizeAddress` after trimming, neighborhood
stripping, whitespace normalization, and removal of trailing commas and
whitespace (variables `addressPart` through the post-cleanup trim of the
source), starting from the prefix of `n3` before the last city-token
occurrence at index `idx`. -/
def cityPartPre (n3 : List Char) (idx : Nat) : List Char :=
  ((normalizeWhitespaceAndCommasL (stripNeighborhoodTokensL
    (jsTrimList (n3.take idx)))).reverse.dropWhile
      (fun c => c = ',' || isWsChar c)).reverse

/-- The house-number-range collapse of `normalizeAddress`: a range
`a-b` after the street is replaced by its midpoint. -/
def rangeCollapsed (ap3 : List Char) : List Char :=
  match matchRangeSplit ap3 with
  | some (base, s, e) =>
    jsTrimList base ++ (' ' :: (Nat.repr ((s + e + 1) / 2)).data)
  | none => ap3

/-- The tail of `normalizeAddress`: split the cleaned address part into
street and house number and rebuild "street number, נתיבות"; null when
the split fails or either part is empty. -/
def rebuildTail (ap6 : List Char) : Option String :=
  match splitStreetNumber ap6 with
  | none => none
  | some (streetRaw, numStr) =>
    if jsTrimList streetRaw = [] ∨ numStr = [] then none else
    some ⟨normalizeStreetTextL (jsTrimList streetRaw) ++ (' ' :: numStr) ++
      (',' :: ' ' :: cityTok)⟩

/-- `normalizeAddress` (normalization.ts): basic cleanup, replacement
dictionary, street-prefix strip; if the city token is absent the cleaned
string is returned; otherwise split at the last city-token occurrence,
strip neighborhoods, collapse a house-number range to its midpoint,
strip an apartment suffix, truncate after the last digit and split into
street and number, rebuilding "street number, נתיבות". -/
def normalizeAddress (raw : String) : Option String :=
  if raw = "" then none else
  if jsTrimList raw.data = [] then none else
  if ¬ (containsSub cityTok (cleanedAddress raw)) then
    some ⟨cleanedAddress raw⟩
  else
  match lastIndexOfSub cityTok (cleanedAddress raw) with
  | none => some ⟨cleanedAddress raw⟩
  | some idx =>
    rebuildTail (upToLastDigit (replApartment
      (rangeCollapsed (cityPartPre (cleanedAddress raw) idx))))

/-- Delete from the first comma that is followed (after whitespace) by
the city token, to the end: regex `,\s*נתיבות.*$`. -/
def stripCityTail (l : List Char) : List Char :=
  match (List.range l.length).findSome? (fun i =>
    match l.drop i with
    | ',' :: t =>
      if cityTok.isPrefixOf (t.dropWhile isWsChar) then some (l.take i) else none
    | _ => none) with
  | some r => r
  | none => l

/-- Split a character list on commas (JS `split(",")`). -/
def splitOnComma : List Char → List (List Char)
  | [] => [[]]
  | c :: rest =>
    let r := splitOnComma rest
    if c = ',' then [] :: r
    else
      match r with
      | h :: t => (c :: h) :: t
      | [] => [[c]]

/-- Tokens of a string: maximal runs of non-whitespace characters
(fuelled by the string length; each step consumes at least one
character). -/
def jsTokensF : Nat → List Char → List (List Char)
  | 0, _ => []
  | _ + 1, [] => []
  | fuel + 1, c :: rest =>
    if isWsChar c then jsTokensF fuel (rest.dropWhile isWsChar)
    else
      let tok := (c :: rest).takeWhile (fun x => !isWsChar x)
      tok :: jsTokensF fuel ((c :: rest).dropWhile (fun x => !isWsChar x))

def jsTokens (l : List Char) : List (List Char) :=
  jsTokensF (l.length + 1) l

/-- House-number token regex `^\d+[א-ת]?$`. -/
def isNumToken (l : List Char) : Bool :=
  let ds := l.takeWhile isDigitChar
  ds ≠ [] &&
    (match l.drop ds.length with
     | [] => true
     | [c] => isHebrewLetter c
     | _ => false)

def intercalateSpace (ls : List (List Char)) : List Char :=
  (ls.intersperse [' ']).flatten

/-- `extractStreetAndNumber` (normalization.ts): normalize
whitespace/commas, drop a trailing city part, keep the last non-empty
comma segment, strip street prefixes and neighborhoods, then split the
last token off as the house number when it looks like one. -/
def extractStreetAndNumber (rawAddress : String) : String × Option String :=
  if rawAddress = "" then ("", none) else
  let v0 := normalizeWhitespaceAndCommasL rawAddress.data
  let v1 := jsTrimList (stripCityTail v0)
  let parts := splitOnComma v1
  let lastPart := jsTrimList (parts.getLast?.getD [])
  let mainPart0 :=
    if lastPart = [] ∧ parts.length > 1 then
      jsTrimList ((parts.take (parts.length - 1)).getLast?.getD [])
    else lastPart
  let mainPart1 := stripStreetPrefixesL mainPart0
  let mainPart2 := stripNeighborhoodTokensL mainPart1
  let mainPart := normalizeWhitespaceAndCommasL mainPart2
  if mainPart = [] then ("", none) else
  let tokens := jsTokens mainPart
  match tokens.getLast? with
  | none => ("", none)
  | some last =>
    if isNumToken last then
      let streetNameRaw := jsTrimList (intercalateSpace (tokens.take (tokens.length - 1)))
      let number := jsTrimList last
      if streetNameRaw = [] then ("", some ⟨number⟩)
      else (⟨normalizeStreetTextL streetNameRaw⟩, some ⟨number⟩)
    else (⟨normalizeStreetTextL mainPart⟩, none)

/-! ## Row-level helpers (src/services/rowProcessor.ts) -/

/-- `isIncompleteAddress`: city-only strings and strings without both
street and house number are incomplete. -/
def isIncompleteAddress (normalizedAddress : Option String) : Bool :=
  match normalizedAddress with
  | none => true
  | some s =>
    let trimmed := jsTrimList s.data
    if trimmed = [] then true else
    let noSpaces := (trimmed.filter (fun c => !isWsChar c)).map toLowerLatin
    if noSpaces = "נתיבות".data ∨ noSpaces = "netivot".data then true else
    let (street, number) := extractStreetAndNumber ⟨trimmed⟩
    if jsTrimList street.data = [] then true else
    match number with
    | none => true
    | some n => jsTrimList n.data = []

/-- `parseHouseNumber`: leading digit run parsed as a positive integer
(Hebrew letter suffixes such as "12א" are dropped). -/
def parseHouseNumber (numberStr : Option String) : Option ℚ :=
  match numberStr with
  | none => none
  | some s =>
    if jsTrimList s.data = [] then none else
    let ds := s.data.takeWhile isDigitChar
    if ds = [] then none else
    let n := digitsToNat ds
    if n = 0 then none else some (n : ℚ)

/-! ## Address type classification (rowProcessor.ts) -/

inductive AddressType where
  | STREET_NUMBER
  | INTERSECTION
  | POI
  | UNKNOWN
deriving DecidableEq

/-- Slash-intersection regex `^(.+?\S)\s*[\/\\]\s*(\S.+)$` (with both
groups non-blank): some slash or backslash splits the string into a
left part of ≥ 2 characters ending in non-whitespace and a right part
of ≥ 2 characters starting with non-whitespace. -/
def slashIntersection (l : List Char) : Bool :=
  (List.range l.length).any (fun i =>
    match l.drop i with
    | c :: rest =>
      if c = '/' ∨ c = '\\' then
        let left := jsTrimRight (l.take i)
        let right := (rest).dropWhile isWsChar
        decide (left.length ≥ 2) && decide (right.length ≥ 2)
      else false
    | [] => false)

/-- Regex `\bפינת\b`. -/
def pinatPat : List RPiece := [.wb, .lit "פינת".data, .wb]

/-- Regex `רחוב\s+([^\s]+)\s+ו-?רחוב\s+([^\s]+)`. -/
def veRehovPat : List RPiece :=
  [.lit "רחוב".data, .clsPlus isWsChar, .clsPlus (fun c => !isWsChar c),
   .clsPlus isWsChar, .lit "ו".data, .optC '-', .lit "רחוב".data,
   .clsPlus isWsChar, .clsPlus (fun c => !isWsChar c)]

/-- Regex `\bתחנה\s*\d+`. -/
def stopNumberPat : List RPiece :=
  [.wb, .lit "תחנה".data, .clsStar isWsChar, .clsPlus isDigitChar]

/-- Regex `\S+\s+(\d+[א-ת]?)\b`. -/
def houseNumberPat : List RPiece :=
  [.clsPlus (fun c => !isWsChar c), .clsPlus isWsChar, .clsPlus isDigitChar,
   .optCls isHebrewLetter, .wb]

/-- Regex `(\S+)\s+(\d+[א-ת]?)\s*$`. -/
def endNumberPat : List RPiece :=
  [.clsPlus (fun c => !isWsChar c), .clsPlus isWsChar, .clsPlus isDigitChar,
   .optCls isHebrewLetter, .clsStar isWsChar, .eos]

/-- The proximity words of `/\b(ליד|סמוך|בסמוך|בקרבת|קרוב|ליד|לידו|לידה)\b/`. -/
def proximityWords : List String :=
  ["ליד", "סמוך", "בסמוך", "בקרבת", "קרוב", "ליד", "לידו", "לידה"]

def proximityTest (l : List Char) : Bool :=
  proximityWords.any (fun w => searchMatch (wbLit w) l)

/-- `classifyAddressType`: first-matching-rule classification into
intersection, street+number, POI or unknown. -/
def classifyAddressType (rawText : String) : AddressType :=
  let t := jsTrimList rawText.data
  if t = [] then .UNKNOWN else
  if slashIntersection t then .INTERSECTION else
  if searchMatch pinatPat t then .INTERSECTION else
  if searchMatch veRehovPat t then .INTERSECTION else
  let hasStopNumber := searchMatch stopNumberPat t
  if ¬ hasStopNumber ∧ searchMatch houseNumberPat t then .STREET_NUMBER else
  if ¬ hasStopNumber ∧ searchMatch endNumberPat t then .STREET_NUMBER else
  if proximityTest t then .UNKNOWN else
  if t.length > 3 then .POI else .UNKNOWN

/-- Regex `\bרחוב\b` with no digit anywhere (route-D message selection). -/
def looksLikeStreetWithoutNumber (l : List Char) : Bool :=
  searchMatch (wbLit "רחוב") l && !(l.any isDigitChar)

/-! ## GIS Lookup Service (gisService.ts) -/

/-- One address point of the loaded `netivot.geojson` layer. -/
structure AddressFeature where
  streetName : String
  normalizedStreetName : String
  houseNumber : Option ℚ
  lat : ℚ
  lon : ℚ
deriving DecidableEq

structure GISLookupResult where
  lat : ℚ
  lon : ℚ
  confidence : ℚ
deriving DecidableEq

/-- A JavaScript `number`-typed argument: either a numeric value or a
value of some other runtime type (`typeof x !== "number"`). -/
inductive JSNum where
  | num (q : ℚ)
  | notNum
deriving DecidableEq

def JSNum.isNotNum : JSNum → Bool
  | .num _ => false
  | .notNum => true

def JSNum.val : JSNum → ℚ
  | .num q => q
  | .notNum => 0

/-- The token-overlap score of `findBestStreetNameMatch`:
`(2 * intersectionCount) / (tokenCountA + tokenCountB)` over the
whitespace-split tokens (intersection over distinct shared tokens),
guarded by `totalTokens > 0` as in the source. -/
def tokenOverlapScore (input cand : List Char) : ℚ :=
  if (jsTokens input).length + (jsTokens cand).length > 0 then
    (2 * ((jsTokens input).dedup.filter (fun t => (jsTokens cand).contains t)).length : ℚ) /
      ((jsTokens input).length + (jsTokens cand).length)
  else 0

/-- Per-candidate fuzzy score (loop body of `findBestStreetNameMatch`):
exact 1.0; prefix 0.85/0.75/0.60 by direction and length difference;
otherwise token overlap with a cutoff at 0.5 and a capped specificity
bonus above 0.80. -/
def candidateScore (input cand : List Char) : ℚ :=
  if cand = input then 1 else
  if input.isPrefixOf cand then
    if (cand.length : ℤ) - input.length ≤ 3 then 0.85 else 0.75
  else if cand.isPrefixOf input then
    if (input.length : ℤ) - cand.length ≤ 3 then 0.85 else 0.60
  else if jsTokens input = [] ∨ jsTokens cand = [] then 0
  else if tokenOverlapScore input cand < 0.5 then 0
  else if tokenOverlapScore input cand ≥ 0.80 then
    if (cand.length : ℤ) - input.length > 0 then
      min 1 (tokenOverlapScore input cand +
        min (0.05 : ℚ) ((((cand.length : ℤ) - input.length : ℤ) : ℚ) * 0.005))
    else tokenOverlapScore input cand
  else tokenOverlapScore input cand

structure FuzzyMatch where
  best : Option (List Char)
  score : ℚ

/-- One step of the best-candidate fold: strict improvement keeps the
earlier candidate on ties. -/
def bestStep (normalizedInput : List Char) (acc : Option (List Char) × ℚ)
    (cand : List Char) : Option (List Char) × ℚ :=
  if candidateScore normalizedInput cand > acc.2 then
    (some cand, candidateScore normalizedInput cand)
  else acc

/-- `findBestStreetNameMatch`: highest-scoring candidate, rejected below
0.7 (strict improvement, so the first of equal scores wins). -/
def findBestStreetNameMatch (normalizedInput : List Char) (candidates : List (List Char)) :
    FuzzyMatch :=
  if normalizedInput = [] ∨ candidates = [] then ⟨none, 0⟩ else
  if (candidates.foldl (bestStep normalizedInput) (none, 0)).2 < 0.7 then
    ⟨none, (candidates.foldl (bestStep normalizedInput) (none, 0)).2⟩
  else
    ⟨(candidates.foldl (bestStep normalizedInput) (none, 0)).1,
     (candidates.foldl (bestStep normalizedInput) (none, 0)).2⟩

/-- First-occurrence deduplication (JS `Set` iteration order), fuelled
by the list length. -/
def firstDedupF : Nat → List (List Char) → List (List Char)
  | 0, _ => []
  | _ + 1, [] => []
  | fuel + 1, x :: xs => x :: firstDedupF fuel (xs.filter (fun y => y ≠ x))

def firstDedup (l : List (List Char)) : List (List Char) :=
  firstDedupF (l.length + 1) l

/-- The cached `_uniqueStreetCandidates` list: deduplicated non-empty
normalized street names. -/
def uniqueStreetCandidates (features : List AddressFeature) : List (List Char) :=
  firstDedup ((features.map (fun f => f.normalizedStreetName.data)).filter (fun n => n ≠ []))

/-- `interpolateCoordinates`: linear interpolation between two house
numbers by the fraction of the target. -/
def interpolateCoordinates (lowerNumber : ℚ) (lowerCoords : ℚ × ℚ)
    (upperNumber : ℚ) (upperCoords : ℚ × ℚ) (targetNumber : ℚ) : ℚ × ℚ :=
  let factor := (targetNumber - lowerNumber) / (upperNumber - lowerNumber)
  (lowerCoords.1 + (upperCoords.1 - lowerCoords.1) * factor,
   lowerCoords.2 + (upperCoords.2 - lowerCoords.2) * factor)

def featKey (f : AddressFeature) : ℚ :=
  f.houseNumber.getD 0

/-- Sort order used before interpolation (`(a.houseNumber||0)-(b.houseNumber||0)`). -/
def featLe (a b : AddressFeature) : Prop :=
  featKey a ≤ featKey b

instance : DecidableRel featLe := fun a b => inferInstanceAs (Decidable (_ ≤ _))

instance : IsTotal AddressFeature featLe := ⟨fun a b => le_total _ _⟩

instance : IsTrans AddressFeature featLe := ⟨fun _ _ _ => le_trans⟩

/-- The bracket scan of `lookupAddress`: walk the sorted features,
remembering the last one strictly below the target, and stop at the
first one strictly above; both are needed. -/
def findBracket (n : ℚ) : Option AddressFeature → List AddressFeature →
    Option (AddressFeature × AddressFeature)
  | _, [] => none
  | lower?, f :: rest =>
    if featKey f < n then findBracket n (some f) rest
    else if featKey f > n then
      match lower? with
      | some l => some (l, f)
      | none => none
    else findBracket n lower? rest

/-- The exact-name street features (`streetFeatures` filter). -/
def exactStreetFeatures (features : List AddressFeature) (normalized : List Char) :
    List AddressFeature :=
  features.filter (fun f => f.normalizedStreetName.data = normalized ∧ f.houseNumber ≠ none)

/-- Street resolution step of `lookupAddress`: exact normalized-name
match first, then fuzzy matching over the deduplicated candidates;
returns the features of the resolved street and whether fuzzy matching
was used. -/
def resolveStreetFeatures (loaded : Bool) (features : List AddressFeature)
    (streetName : String) (houseNumber : JSNum) :
    Option (List AddressFeature × Bool) :=
  if ¬ loaded ∨ streetName = "" ∨ houseNumber.isNotNum ∨ houseNumber.val ≤ 0 then none else
  if exactStreetFeatures features (normalizeStreetText streetName).data ≠ [] then
    some (exactStreetFeatures features (normalizeStreetText streetName).data, false)
  else
    match (findBestStreetNameMatch (normalizeStreetText streetName).data
        (uniqueStreetCandidates features)).best with
    | none => none
    | some best => some (exactStreetFeatures features best, true)

/-- Exact/interpolation step of `lookupAddress` after street resolution. -/
def lookupCore (streetFeatures : List AddressFeature) (fuzzyUsed : Bool) (n : ℚ) :
    Option GISLookupResult :=
  match (streetFeatures.insertionSort featLe).find? (fun f => f.houseNumber = some n) with
  | some f => some ⟨f.lat, f.lon, if fuzzyUsed then 0.9 else 1.0⟩
  | none =>
    match findBracket n none (streetFeatures.insertionSort featLe) with
    | none => none
    | some (lf, uf) =>
      some ⟨(interpolateCoordinates (featKey lf) (lf.lat, lf.lon)
          (featKey uf) (uf.lat, uf.lon) n).1,
        (interpolateCoordinates (featKey lf) (lf.lat, lf.lon)
          (featKey uf) (uf.lat, uf.lon) n).2,
        if fuzzyUsed then 0.7 else 0.8⟩

/-- `GISService.lookupAddress`. -/
def lookupAddress (loaded : Bool) (features : List AddressFeature)
    (streetName : String) (houseNumber : JSNum) : Option GISLookupResult :=
  match resolveStreetFeatures loaded features streetName houseNumber with
  | none => none
  | some (fs, fuzzyUsed) => lookupCore fs fuzzyUsed houseNumber.val

/-- The claim's notion "an exact house-number match was found": after
street resolution (exact or fuzzy), some feature of the resolved street
carries exactly the requested house number. -/
def gisExactNumberMatchFound (loaded : Bool) (features : List AddressFeature)
    (streetName : String) (houseNumber : JSNum) : Bool :=
  match resolveStreetFeatures loaded features streetName houseNumber with
  | none => false
  | some (fs, _) => fs.any (fun f => f.houseNumber = some houseNumber.val)

/-! ## Hybrid geocoder (hybridGeocoder.ts)

The external HTTP adapters (GovMap, Nominatim) are abstracted as oracle
responses: the coordinates the adapter would return for the query built
by the geocoder, or `none` for any failure (timeout, error, no result) —
exactly the adapter contract in the source.  The trace records which
sources were consulted, in order. -/

structure Coord where
  lat : ℚ
  lon : ℚ
deriving DecidableEq

/-- `NETIVOT_BOUNDS` (constants.ts). -/
def NETIVOT_BOUNDS : ℚ × ℚ × ℚ × ℚ := (31.40, 31.52, 34.55, 34.72)

/-- `isWithinNetivotBounds`. -/
def isWithinNetivotBounds (lat lon : ℚ) : Bool :=
  NETIVOT_BOUNDS.1 ≤ lat ∧ lat ≤ NETIVOT_BOUNDS.2.1 ∧
    NETIVOT_BOUNDS.2.2.1 ≤ lon ∧ lon ≤ NETIVOT_BOUNDS.2.2.2

inductive GeoSource where
  | GIS
  | NOMINATIM
  | GOVMAP
deriving DecidableEq

inductive GeoMethod where
  | GIS_EXACT
  | GIS_INTERPOLATED
  | NOMINATIM
  | NOMINATIM_BBOX_RESTRICTED
  | NOMINATIM_OUT_OF_BOUNDS
  | GEOCODE
deriving DecidableEq

structure HybridGeocodingResult where
  lat : ℚ
  lon : ℚ
  confidence : ℚ
  source : GeoSource
  method : GeoMethod
deriving DecidableEq

inductive ProviderCall where
  | GIS_DB
  | GOVMAP_API
  | NOMINATIM_API
deriving DecidableEq

/-- `convertGISResultToHybrid`: method is EXACT iff confidence is 1.0. -/
def convertGISResultToHybrid (g : GISLookupResult) : HybridGeocodingResult :=
  ⟨g.lat, g.lon, g.confidence, .GIS,
   if g.confidence = 1.0 then .GIS_EXACT else .GIS_INTERPOLATED⟩

/-- `convertNominatimResultToHybrid`: 0.6 and a bbox-restricted method
inside the bounds, 0.3 and an out-of-bounds method outside. -/
def convertNominatimResultToHybrid (p : Coord) : HybridGeocodingResult :=
  if isWithinNetivotBounds p.lat p.lon then
    ⟨p.lat, p.lon, 0.6, .NOMINATIM, .NOMINATIM_BBOX_RESTRICTED⟩
  else
    ⟨p.lat, p.lon, 0.3, .NOMINATIM, .NOMINATIM_OUT_OF_BOUNDS⟩

/-- `HybridGeocoder.geocode`: throws before `init()`; rejects bad
arguments without consulting anything; then GIS → GovMap (bounds
enforced) → Nominatim (always accepted, confidence by bounds). -/
def hybridGeocode (initialized : Bool) (gisLoaded : Bool)
    (features : List AddressFeature) (street : String) (houseNumber : JSNum)
    (govmapResp : Option Coord) (nominatimResp : Option Coord) :
    Except String (Option HybridGeocodingResult × List ProviderCall) :=
  if ¬ initialized then
    .error "HybridGeocoder not initialized. Call init() before using geocode()."
  else if street = "" ∨ houseNumber.isNotNum ∨ houseNumber.val ≤ 0 then
    .ok (none, [])
  else
    match lookupAddress gisLoaded features street houseNumber with
    | some gisResult => .ok (some (convertGISResultToHybrid gisResult), [.GIS_DB])
    | none =>
      let nominatimStep : Option HybridGeocodingResult × List ProviderCall :=
        match nominatimResp with
        | none => (none, [.GIS_DB, .GOVMAP_API, .NOMINATIM_API])
        | some p => (some (convertNominatimResultToHybrid p),
            [.GIS_DB, .GOVMAP_API, .NOMINATIM_API])
      match govmapResp with
      | some g =>
        if isWithinNetivotBounds g.lat g.lon then
          .ok (some ⟨g.lat, g.lon, 0.75, .GOVMAP, .GEOCODE⟩, [.GIS_DB, .GOVMAP_API])
        else .ok nominatimStep
      | none => .ok nominatimStep

/-- `geocodeNetivot` (geocoding.ts): GovMap first (bounds enforced),
then the Nominatim query chain, abstracted as one oracle response. -/
def geocodeNetivot (govResp : Option Coord) (nomResp : Option Coord) :
    Option Coord × List ProviderCall :=
  match govResp with
  | some g =>
    if isWithinNetivotBounds g.lat g.lon then (some g, [.GOVMAP_API])
    else (nomResp, [.GOVMAP_API, .NOMINATIM_API])
  | none => (nomResp, [.GOVMAP_API, .NOMINATIM_API])

/-- `HybridGeocoder.geocodeRequest` for INTERSECTION/POI: GovMap with
the city-suffixed query (bounds enforced), then the legacy
`geocodeNetivot` fallback whose result is tagged as a Nominatim result
with the usual bounds-dependent confidence. -/
def geocodeRequestPoi (rawText : String) (govmapResp : Option Coord)
    (netivotGovResp : Option Coord) (netivotNomResp : Option Coord) :
    Option HybridGeocodingResult × List ProviderCall :=
  let trimmedText := jsTrimList rawText.data
  if trimmedText = [] then (none, []) else
  let fallback : Option HybridGeocodingResult × List ProviderCall :=
    let (coords, tr) := geocodeNetivot netivotGovResp netivotNomResp
    match coords with
    | none => (none, .GOVMAP_API :: tr)
    | some p =>
      if isWithinNetivotBounds p.lat p.lon then
        (some ⟨p.lat, p.lon, 0.6, .NOMINATIM, .NOMINATIM_BBOX_RESTRICTED⟩,
          .GOVMAP_API :: tr)
      else
        (some ⟨p.lat, p.lon, 0.3, .NOMINATIM, .NOMINATIM_OUT_OF_BOUNDS⟩,
          .GOVMAP_API :: tr)
  match govmapResp with
  | some g =>
    if isWithinNetivotBounds g.lat g.lon then
      (some ⟨g.lat, g.lon, 0.75, .GOVMAP, .GEOCODE⟩, [.GOVMAP_API])
    else fallback
  | none => fallback

/-! ## Classifier (rowProcessor.ts) -/

inductive ProcessingStatus where
  | PENDING
  | CONFIRMED
  | UPDATED
  | NEEDS_REVIEW
  | NOT_FOUND
  | SKIPPED
deriving DecidableEq

open ProcessingStatus

/-- `mapConfidenceToStatus`: source-specific thresholds mapping
`(source, confidence, inBounds)` to a tentative status. -/
def mapConfidenceToStatus (result : HybridGeocodingResult) (inBounds : Bool) :
    ProcessingStatus :=
  if result.source = .GIS then
    if result.confidence ≥ 0.8 then CONFIRMED
    else if result.confidence ≥ 0.6 then NEEDS_REVIEW
    else NOT_FOUND
  else if result.source = .GOVMAP then
    if inBounds ∧ result.confidence ≥ 0.75 then CONFIRMED
    else if result.confidence ≥ 0.6 then NEEDS_REVIEW
    else NOT_FOUND
  else
    if result.confidence ≥ 0.9 then CONFIRMED
    else if result.confidence ≥ 0.6 then NEEDS_REVIEW
    else NOT_FOUND

/-- Distance thresholds of the rule-4 downgrade (and its warning). -/
def maxAllowedDistance (addressType : AddressType) (source : GeoSource) : ℚ :=
  if addressType = .STREET_NUMBER then
    if source = .GIS then 1000
    else if source = .GOVMAP then 1200
    else 500
  else 1500

/-- One-step status upgrade used by the distance-based upgrade. -/
def upgradeOneStep (s : ProcessingStatus) : ProcessingStatus :=
  if s = NOT_FOUND then NEEDS_REVIEW
  else if s = NEEDS_REVIEW then CONFIRMED
  else s

/-- The first two status assignments of `applyGeocodingResult`:
tentative status from `mapConfidenceToStatus`, then the out-of-bounds
downgrade of a tentative CONFIRMED. -/
def boundsAdjustedStatus (g : HybridGeocodingResult) : ProcessingStatus :=
  if ¬ isWithinNetivotBounds g.lat g.lon ∧
      mapConfidenceToStatus g (isWithinNetivotBounds g.lat g.lon) = CONFIRMED then
    NEEDS_REVIEW
  else mapConfidenceToStatus g (isWithinNetivotBounds g.lat g.lon)

/-- Rules 1–4 of `applyGeocodingResult`: trusted-source force-confirms
and the distance-based downgrade. -/
def applyTrustRules (s1 : ProcessingStatus) (g : HybridGeocodingResult)
    (addressType : AddressType) (distance? : Option ℚ) : ProcessingStatus :=
  if (addressType = .INTERSECTION ∨ addressType = .POI) ∧
      isWithinNetivotBounds g.lat g.lon ∧
      (g.source = .GIS ∨ g.source = .GOVMAP) ∧ g.confidence ≥ 0.7 then
    CONFIRMED
  else if addressType = .STREET_NUMBER ∧ g.source = .GIS ∧
      isWithinNetivotBounds g.lat g.lon ∧ g.confidence ≥ 0.9 then
    CONFIRMED
  else if addressType = .STREET_NUMBER ∧ g.source = .GOVMAP ∧
      isWithinNetivotBounds g.lat g.lon ∧ g.confidence ≥ 0.75 then
    match distance? with
    | some d => if d > 3000 ∧ s1 = CONFIRMED then NEEDS_REVIEW else s1
    | none => s1
  else
    match distance? with
    | some d =>
      if d > maxAllowedDistance addressType g.source ∧ s1 = CONFIRMED then
        NEEDS_REVIEW
      else s1
    | none => s1

/-- The distance-based one-step upgrade of `applyGeocodingResult`. -/
def applyDistanceUpgrade (s2 : ProcessingStatus) (g : HybridGeocodingResult)
    (addressType : AddressType) (distance? : Option ℚ) : ProcessingStatus :=
  match distance? with
  | some d =>
    if isWithinNetivotBounds g.lat g.lon then
      if addressType = .STREET_NUMBER ∧ d ≤ 100 ∧ s2 ≠ CONFIRMED then
        upgradeOneStep s2
      else if (addressType = .INTERSECTION ∨ addressType = .POI) ∧ d ≤ 250 ∧
          s2 ≠ CONFIRMED then
        upgradeOneStep s2
      else s2
    else s2
  | none => s2

/-- Post-processing: medium-accuracy trusted-source auto-confirm. -/
def applyAutoConfirm (s3 : ProcessingStatus) (g : HybridGeocodingResult)
    (addressType : AddressType) : ProcessingStatus :=
  if s3 = NEEDS_REVIEW ∧ addressType = .STREET_NUMBER ∧
      isWithinNetivotBounds g.lat g.lon ∧
      (g.source = .GIS ∨ g.source = .GOVMAP) ∧ g.confidence ≥ 0.75 then
    CONFIRMED
  else s3

/-- Post-processing: low-confidence Nominatim POI auto-confirm. -/
def applyNominatimPoiConfirm (s4 : ProcessingStatus) (g : HybridGeocodingResult)
    (addressType : AddressType) : ProcessingStatus :=
  if s4 = NEEDS_REVIEW ∧ addressType = .POI ∧ g.source = .NOMINATIM ∧
      isWithinNetivotBounds g.lat g.lon ∧ g.confidence ≥ 0.6 then
    CONFIRMED
  else s4

/-- The status computation of `applyGeocodingResult`, the sequential
status assignments of the source composed in order.  The great-circle
distance to the row prior coordinates enters the source only through
comparisons, so it is abstracted as an optional rational parameter
(`none` = the row has no original coordinates). -/
def applyGeocodingResultStatus (g : HybridGeocodingResult)
    (addressType : AddressType) (distance? : Option ℚ) : ProcessingStatus :=
  applyNominatimPoiConfirm
    (applyAutoConfirm
      (applyDistanceUpgrade
        (applyTrustRules (boundsAdjustedStatus g) g addressType distance?)
        g addressType distance?)
      g addressType)
    g addressType

/-! ## processRow (rowProcessor.ts)

`distanceMeters` is a transcendental (haversine) real-valued function;
it is abstracted as the `distFn` parameter, which the status logic only
ever compares against thresholds. -/

structure AddressRow where
  normalizedAddress : Option String
  address : Option String
  originalAddress : Option String
  originalCoords : Option Coord

/-- All external state and oracle responses one `processRow` call can
touch: geocoder initialization, the GIS layer, and the adapter
responses of each query the call may issue. -/
structure RowEnv where
  initialized : Bool
  gisLoaded : Bool
  features : List AddressFeature
  govmapResp : Option Coord
  nominatimResp : Option Coord
  poiGovmapResp : Option Coord
  netivotGovResp : Option Coord
  netivotNomResp : Option Coord

structure RowOutcome where
  status : ProcessingStatus
  message : Option String
  calls : List ProviderCall

/-- JS `a || b` on string-valued fields: empty string is falsy. -/
def jsOrStr (o : Option String) (d : String) : String :=
  match o with
  | some s => if s = "" then d else s
  | none => d

def skippedMissingAddress : String := "חסרה כתובת מלאה"

def applyGeocodingResultRow (distFn : Coord → Coord → ℚ) (row : AddressRow)
    (g : HybridGeocodingResult) (addressType : AddressType)
    (calls : List ProviderCall) : RowOutcome :=
  let finalCoords : Coord := ⟨g.lat, g.lon⟩
  let distance? := row.originalCoords.map (fun oc => distFn oc finalCoords)
  ⟨applyGeocodingResultStatus g addressType distance?, none, calls⟩

/-- `processStreetNumberAddress`. -/
def processStreetNumberAddress (env : RowEnv) (distFn : Coord → Coord → ℚ)
    (row : AddressRow) (rawAddress : String) : RowOutcome :=
  let normalized := normalizeAddress rawAddress
  if normalized = none ∨ isIncompleteAddress normalized then
    ⟨SKIPPED, some "חסרה כתובת מלאה (אין מספר בית או שם רחוב)", []⟩
  else
    let (street, number) := extractStreetAndNumber (normalized.getD "")
    if jsTrimList street.data = [] then
      ⟨SKIPPED, some "חסרה כתובת מלאה (אין שם רחוב)", []⟩
    else
      match parseHouseNumber number with
      | none => ⟨SKIPPED, some "חסרה כתובת מלאה (אין מספר בית)", []⟩
      | some houseNumber =>
        match hybridGeocode env.initialized env.gisLoaded env.features street
            (.num houseNumber) env.govmapResp env.nominatimResp with
        | .error _ => ⟨NOT_FOUND, some "שגיאה בגיאוקודינג – נדרש טיפול ידני", []⟩
        | .ok (none, calls) =>
          ⟨NOT_FOUND, some "כתובת מלאה אך לא נמצאה במאגר המיפוי – נדרש טיפול ידני", calls⟩
        | .ok (some g, calls) =>
          applyGeocodingResultRow distFn row g .STREET_NUMBER calls

/-- `processIntersectionOrPoi`. -/
def processIntersectionOrPoi (env : RowEnv) (distFn : Coord → Coord → ℚ)
    (row : AddressRow) (rawAddress : String) (addressType : AddressType) :
    RowOutcome :=
  let trimmedAddress : String := ⟨jsTrimList rawAddress.data⟩
  let (result, calls) := geocodeRequestPoi trimmedAddress env.poiGovmapResp
    env.netivotGovResp env.netivotNomResp
  match result with
  | some g => applyGeocodingResultRow distFn row g addressType calls
  | none =>
    ⟨NOT_FOUND, some "כתובת מלאה אך לא נמצאה במאגר המיפוי – נדרש טיפול ידני", calls⟩

/-- `processRow`: extract the raw address, classify its type, and route
to the street-number pipeline, the intersection/POI chain, or a skip. -/
def processRow (env : RowEnv) (distFn : Coord → Coord → ℚ) (row : AddressRow) :
    RowOutcome :=
  let rawAddress := jsOrStr row.normalizedAddress
    (jsOrStr row.address (jsOrStr row.originalAddress ""))
  if jsTrimList rawAddress.data = [] then
    ⟨SKIPPED, some skippedMissingAddress, []⟩
  else
    match classifyAddressType rawAddress with
    | .STREET_NUMBER => processStreetNumberAddress env distFn row rawAddress
    | .INTERSECTION => processIntersectionOrPoi env distFn row rawAddress .INTERSECTION
    | .POI => processIntersectionOrPoi env distFn row rawAddress .POI
    | .UNKNOWN =>
      ⟨SKIPPED,
        some (if looksLikeStreetWithoutNumber rawAddress.data then
          "חסרה כתובת מלאה (אין מספר בית)" else "כתובת לא מזוהה"), []⟩

/-! ## Claims -/

/-- C1: for every geocoding result whose coordinates lie outside the
Netivot bounding box, the classifier never produces final status
CONFIRMED — a tentative CONFIRMED is downgraded to NEEDS_REVIEW, and no
force-confirm, distance-upgrade or post-processing auto-confirm rule
applies out of bounds — for every address kind and every (optional)
distance to prior coordinates. -/
theorem C1_out_of_bounds_never_confirmed (g : HybridGeocodingResult)
    (ty : AddressType) (dist? : Option ℚ)
    (h : isWithinNetivotBounds g.lat g.lon = false) :
    applyGeocodingResultStatus g ty dist? ≠ CONFIRMED ∧
    (mapConfidenceToStatus g false = CONFIRMED →
      applyGeocodingResultStatus g ty dist? = NEEDS_REVIEW) := by
  unfold applyGeocodingResultStatus applyNominatimPoiConfirm applyAutoConfirm
    applyDistanceUpgrade applyTrustRules boundsAdjustedStatus
  simp only [h]
  by_cases hs : mapConfidenceToStatus g false = CONFIRMED <;>
    cases dist? <;> simp [hs]

theorem C1_witness :
    applyGeocodingResultStatus ⟨0, 0, 1, .GIS, .GIS_EXACT⟩ .STREET_NUMBER none ≠
      CONFIRMED ∧
    (mapConfidenceToStatus ⟨0, 0, 1, .GIS, .GIS_EXACT⟩ false = CONFIRMED →
      applyGeocodingResultStatus ⟨0, 0, 1, .GIS, .GIS_EXACT⟩ .STREET_NUMBER none =
        NEEDS_REVIEW) :=
  C1_out_of_bounds_never_confirmed ⟨0, 0, 1, .GIS, .GIS_EXACT⟩ .STREET_NUMBER none
    (by with_unfolding_all decide)

/-- C3: tentative status thresholds are source specific — GIS: ≥ 0.8
CONFIRMED, ≥ 0.6 NEEDS_REVIEW, else NOT_FOUND; GovMap inside the
boundary: ≥ 0.75 CONFIRMED, ≥ 0.6 NEEDS_REVIEW, else NOT_FOUND; any
other source needs ≥ 0.9 for CONFIRMED — and a GovMap result with
confidence 0.75 inside the boundary on a row without prior coordinates
ends CONFIRMED. -/
theorem C3_confidence_thresholds :
    (∀ (g : HybridGeocodingResult) (inB : Bool), g.source = .GIS →
      ((0.8 ≤ g.confidence → mapConfidenceToStatus g inB = CONFIRMED) ∧
       (0.6 ≤ g.confidence → g.confidence < 0.8 →
         mapConfidenceToStatus g inB = NEEDS_REVIEW) ∧
       (g.confidence < 0.6 → mapConfidenceToStatus g inB = NOT_FOUND))) ∧
    (∀ g : HybridGeocodingResult, g.source = .GOVMAP →
      ((0.75 ≤ g.confidence → mapConfidenceToStatus g true = CONFIRMED) ∧
       (0.6 ≤ g.confidence → g.confidence < 0.75 →
         mapConfidenceToStatus g true = NEEDS_REVIEW) ∧
       (g.confidence < 0.6 → mapConfidenceToStatus g true = NOT_FOUND))) ∧
    (∀ (g : HybridGeocodingResult) (inB : Bool), g.source = .NOMINATIM →
      (mapConfidenceToStatus g inB = CONFIRMED ↔ 0.9 ≤ g.confidence)) ∧
    (∀ (g : HybridGeocodingResult) (ty : AddressType), g.source = .GOVMAP →
      g.confidence = 0.75 → isWithinNetivotBounds g.lat g.lon = true →
      applyGeocodingResultStatus g ty none = CONFIRMED) := by
  refine ⟨?_, ?_, ?_, ?_⟩
  · intro g inB hsrc
    unfold mapConfidenceToStatus
    refine ⟨?_, ?_, ?_⟩
    · intro h1; simp only [hsrc, if_pos rfl]
      split_ifs <;> first | rfl | (exfalso; linarith) | simp_all
    · intro h1 h2; simp only [hsrc, if_pos rfl]
      split_ifs <;> first | rfl | (exfalso; linarith) | simp_all
    · intro h1; simp only [hsrc, if_pos rfl]
      split_ifs <;> first | rfl | (exfalso; linarith) | simp_all
  · intro g hsrc
    have hne : g.source ≠ .GIS := by rw [hsrc]; intro h; cases h
    unfold mapConfidenceToStatus
    refine ⟨?_, ?_, ?_⟩
    · intro h1; simp only [hsrc, if_neg hne, if_pos rfl]
      split_ifs <;> first | rfl | (exfalso; linarith) | simp_all
    · intro h1 h2; simp only [hsrc, if_neg hne, if_pos rfl]
      split_ifs <;> first | rfl | (exfalso; linarith) | simp_all
    · intro h1; simp only [hsrc, if_neg hne, if_pos rfl]
      split_ifs <;> first | rfl | (exfalso; linarith) | simp_all
  · intro g inB hsrc
    have hne : g.source ≠ .GIS := by rw [hsrc]; intro h; cases h
    have hne2 : g.source ≠ .GOVMAP := by rw [hsrc]; intro h; cases h
    unfold mapConfidenceToStatus
    simp only [if_neg hne, if_neg hne2]
    split_ifs <;> simp_all
  · intro g ty hsrc hconf hin
    unfold applyGeocodingResultStatus applyNominatimPoiConfirm applyAutoConfirm
      applyDistanceUpgrade applyTrustRules boundsAdjustedStatus mapConfidenceToStatus
    cases ty <;> simp [hsrc, hconf, hin] <;> norm_num

theorem C3_witness :
    mapConfidenceToStatus ⟨31.45, 34.6, 0.75, .GOVMAP, .GEOCODE⟩ true = CONFIRMED ∧
    applyGeocodingResultStatus ⟨31.45, 34.6, 0.75, .GOVMAP, .GEOCODE⟩
      .STREET_NUMBER none = CONFIRMED :=
  ⟨(C3_confidence_thresholds.2.1 ⟨31.45, 34.6, 0.75, .GOVMAP, .GEOCODE⟩ rfl).1
      (by norm_num),
   C3_confidence_thresholds.2.2.2 ⟨31.45, 34.6, 0.75, .GOVMAP, .GEOCODE⟩
      .STREET_NUMBER rfl rfl (by with_unfolding_all decide)⟩

/-- C10: `geocode` enforces its preconditions — before `init()` every
call throws; after initialization, an empty street, a non-number house
number, or a house number ≤ 0 yields `null` without consulting the
spatial index or any provider (empty call trace). -/
theorem C10_geocode_guards (gisLoaded : Bool) (features : List AddressFeature)
    (street : String) (houseNumber : JSNum) (gov nom : Option Coord) :
    (hybridGeocode false gisLoaded features street houseNumber gov nom =
      .error "HybridGeocoder not initialized. Call init() before using geocode().") ∧
    (street = "" ∨ houseNumber.isNotNum = true ∨ houseNumber.val ≤ 0 →
      hybridGeocode true gisLoaded features street houseNumber gov nom =
        .ok (none, [])) := by
  constructor
  · unfold hybridGeocode; simp
  · intro h
    unfold hybridGeocode
    rw [if_neg (by simp), if_pos]
    rcases h with h | h | h
    · left; exact h
    · right; left; simp [h]
    · right; right; exact h

theorem C10_witness :
    hybridGeocode true true [] "hello" (.num (-3)) none none = .ok (none, []) :=
  (C10_geocode_guards true [] "hello" (.num (-3)) none none).2
    (Or.inr (Or.inr (by norm_num [JSNum.val])))

/-- The dataset of the C2 counterexample: one feature whose street name
fuzzy-matches the query "aaaa" (prefix, length difference 1, score
0.85) and carries exactly the requested house number 5. -/
def c2feat : AddressFeature := ⟨"aaaab", "aaaab", some 5, 31.45, 34.6⟩

/-- C2 counterexample: an exact house-number match reached through fuzzy
street matching has GIS confidence 0.9, so `convertGISResultToHybrid`
tags it GIS_INTERPOLATED even though an exact house-number match was
found — refuting "method EXACT exactly when an exact house-number match
was found". -/
theorem C2_counterexample :
    hybridGeocode true true [c2feat] "aaaa" (.num 5) none none =
      .ok (some ⟨31.45, 34.6, 0.9, .GIS, .GIS_INTERPOLATED⟩, [.GIS_DB]) ∧
    gisExactNumberMatchFound true [c2feat] "aaaa" (.num 5) = true ∧
    GeoMethod.GIS_INTERPOLATED ≠ .GIS_EXACT := by
  refine ⟨?_, ?_, ?_⟩
  · with_unfolding_all rfl
  · with_unfolding_all rfl
  · intro h; cases h

/-- Street-resolution helper: a non-fuzzy resolution returns exactly the
exact-name features, which are nonempty. -/
theorem resolve_nonfuzzy {loaded : Bool} {features : List AddressFeature}
    {street : String} {hn : JSNum} {fs : List AddressFeature}
    (h : resolveStreetFeatures loaded features street hn = some (fs, false)) :
    exactStreetFeatures features (normalizeStreetText street).data = fs ∧ fs ≠ [] := by
  unfold resolveStreetFeatures at h
  split at h
  · cases h
  · split at h
    · rename_i hne
      injection h with h
      injection h with h1 h2
      exact ⟨h1, h1 ▸ hne⟩
    · split at h
      · cases h
      · injection h with h; injection h with h1 h2; cases h2

theorem resolve_fuzzy {loaded : Bool} {features : List AddressFeature}
    {street : String} {hn : JSNum} {fs : List AddressFeature}
    (h : resolveStreetFeatures loaded features street hn = some (fs, true)) :
    exactStreetFeatures features (normalizeStreetText street).data = [] := by
  unfold resolveStreetFeatures at h
  split at h
  · cases h
  · split at h
    · injection h with h; injection h with h1 h2; cases h2
    · simp_all

theorem lookupCore_mem_any {fs : List AddressFeature} {n : ℚ} {f : AddressFeature}
    (hf : (fs.insertionSort featLe).find? (fun f => f.houseNumber = some n) = some f) :
    fs.any (fun f => f.houseNumber = some n) = true := by
  have hmem : f ∈ fs.insertionSort featLe := List.mem_of_find?_eq_some hf
  have hp := List.find?_some hf
  rw [List.any_eq_true]
  exact ⟨f, (List.perm_insertionSort featLe fs).mem_iff.mp hmem, hp⟩

theorem lookupCore_none_any {fs : List AddressFeature} {n : ℚ}
    (hf : (fs.insertionSort featLe).find? (fun f => f.houseNumber = some n) = none) :
    fs.any (fun f => f.houseNumber = some n) = false := by
  rw [List.find?_eq_none] at hf
  rw [Bool.eq_false_iff]
  intro hc
  rw [List.any_eq_true] at hc
  obtain ⟨f, hmem, hp⟩ := hc
  exact absurd hp (by
    have := hf f ((List.perm_insertionSort featLe fs).mem_iff.mpr hmem)
    simpa using this)

theorem lookupAddress_confidence_one {loaded : Bool} {features : List AddressFeature}
    {street : String} {hn : JSNum} {g : GISLookupResult}
    (h : lookupAddress loaded features street hn = some g) :
    (g.confidence = 1 ↔
      (exactStreetFeatures features (normalizeStreetText street).data ≠ [] ∧
       gisExactNumberMatchFound loaded features street hn = true)) := by
  unfold lookupAddress at h
  unfold gisExactNumberMatchFound
  split at h
  · cases h
  · rename_i fs fz hres
    unfold lookupCore at h
    cases hfind : (fs.insertionSort featLe).find? (fun f => f.houseNumber = some hn.val) with
    | some f =>
      rw [hfind] at h
      injection h with h
      subst h
      cases fz
      · have := resolve_nonfuzzy hres
        simp [this.1, this.2, lookupCore_mem_any hfind]
        all_goals norm_num
      · have := resolve_fuzzy hres
        simp only [if_pos rfl]
        constructor
        · intro hc; exfalso; revert hc; norm_num
        · intro hc; exact absurd this hc.1
    | none =>
      rw [hfind] at h
      cases hbr : findBracket hn.val none (fs.insertionSort featLe) with
      | none => rw [hbr] at h; cases h
      | some pr =>
        rw [hbr] at h
        cases pr with
        | mk lf uf =>
          injection h with h
          subst h
          cases fz
          · have := resolve_nonfuzzy hres
            constructor
            · intro hc; exfalso; revert hc; norm_num
            · intro hc
              rw [lookupCore_none_any hfind] at hc
              cases hc.2
          · have := resolve_fuzzy hres
            constructor
            · intro hc; exfalso; revert hc; norm_num
            · intro hc; exact absurd this hc.1

/-- C2 (amended): for every StreetNumber request with a nonempty street
and positive house number, the ensemble tries Spatial Index → GovMap →
Nominatim strictly in order (witnessed by the consultation trace): a GIS
result returns immediately, tagged EXACT exactly when the GIS confidence
is 1.0, i.e. an exact house-number match on an exactly-matched
(non-fuzzy) street name — an exact number match reached via fuzzy street
matching is tagged INTERPOLATED; a GovMap point is accepted at
confidence 0.75 only inside the boundary, otherwise discarded and the
next source tried; a Nominatim point is always accepted, at 0.6 with the
bbox-restricted method inside the boundary, at 0.3 with the
out-of-bounds method outside; if all three sources fail the result is
null. -/
theorem C2_ensemble_amended (gisLoaded : Bool) (features : List AddressFeature)
    (street : String) (n : ℚ) (gov nom : Option Coord)
    (hs : street ≠ "") (hn : 0 < n) :
    (∀ g, lookupAddress gisLoaded features street (.num n) = some g →
      hybridGeocode true gisLoaded features street (.num n) gov nom =
        .ok (some (convertGISResultToHybrid g), [.GIS_DB]) ∧
      ((convertGISResultToHybrid g).method = .GIS_EXACT ↔
        (exactStreetFeatures features (normalizeStreetText street).data ≠ [] ∧
         gisExactNumberMatchFound gisLoaded features street (.num n) = true))) ∧
    (lookupAddress gisLoaded features street (.num n) = none →
      ∀ c, gov = some c → isWithinNetivotBounds c.lat c.lon = true →
        hybridGeocode true gisLoaded features street (.num n) gov nom =
          .ok (some ⟨c.lat, c.lon, 0.75, .GOVMAP, .GEOCODE⟩, [.GIS_DB, .GOVMAP_API])) ∧
    (lookupAddress gisLoaded features street (.num n) = none →
      (gov = none ∨ ∃ c, gov = some c ∧ isWithinNetivotBounds c.lat c.lon = false) →
      ∀ p, nom = some p →
        hybridGeocode true gisLoaded features street (.num n) gov nom =
          .ok (some (convertNominatimResultToHybrid p),
            [.GIS_DB, .GOVMAP_API, .NOMINATIM_API]) ∧
        (isWithinNetivotBounds p.lat p.lon = true →
          (convertNominatimResultToHybrid p).confidence = 0.6 ∧
          (convertNominatimResultToHybrid p).method = .NOMINATIM_BBOX_RESTRICTED) ∧
        (isWithinNetivotBounds p.lat p.lon = false →
          (convertNominatimResultToHybrid p).confidence = 0.3 ∧
          (convertNominatimResultToHybrid p).method = .NOMINATIM_OUT_OF_BOUNDS)) ∧
    (lookupAddress gisLoaded features street (.num n) = none →
      (gov = none ∨ ∃ c, gov = some c ∧ isWithinNetivotBounds c.lat c.lon = false) →
      nom = none →
      hybridGeocode true gisLoaded features street (.num n) gov nom =
        .ok (none, [.GIS_DB, .GOVMAP_API, .NOMINATIM_API])) := by
  have hguard : ¬ (street = "" ∨ (JSNum.num n).isNotNum = true ∨ (JSNum.num n).val ≤ 0) := by
    simp [hs, JSNum.isNotNum, JSNum.val]
    linarith
  refine ⟨?_, ?_, ?_, ?_⟩
  · intro g hg
    constructor
    · unfold hybridGeocode
      rw [if_neg (by simp), if_neg hguard, hg]
    · have hc := lookupAddress_confidence_one hg
      have h10 : (1.0 : ℚ) = 1 := by norm_num
      unfold convertGISResultToHybrid
      by_cases hone : g.confidence = 1.0
      · simp only [if_pos hone]
        constructor
        · intro _; exact hc.mp (h10 ▸ hone)
        · intro _; trivial
      · simp only [if_neg hone]
        constructor
        · intro hx; cases hx
        · intro hx
          exfalso
          apply hone
          rw [h10]
          exact hc.mpr hx
  · intro hl c hcgov hin
    unfold hybridGeocode
    rw [if_neg (by simp), if_neg hguard, hl, hcgov]
    simp [hin]
  · intro hl hgov p hp
    refine ⟨?_, ?_, ?_⟩
    · unfold hybridGeocode
      rw [if_neg (by simp), if_neg hguard, hl]
      rcases hgov with hg | ⟨c, hc, hout⟩
      · rw [hg, hp]
      · rw [hc, hp]
        simp [hout]
    · intro hin
      unfold convertNominatimResultToHybrid
      simp [hin]
    · intro hout
      unfold convertNominatimResultToHybrid
      simp [hout]
  · intro hl hgov hnom
    unfold hybridGeocode
    rw [if_neg (by simp), if_neg hguard, hl]
    rcases hgov with hg | ⟨c, hc, hout⟩
    · rw [hg, hnom]
    · rw [hc, hnom]
      simp [hout]

theorem C2_witness :
    hybridGeocode true true [] "x" (.num 1) none none =
      .ok (none, [.GIS_DB, .GOVMAP_API, .NOMINATIM_API]) :=
  (C2_ensemble_amended true [] "x" 1 none none (by decide) (by norm_num)).2.2.2
    (by with_unfolding_all rfl) (Or.inl rfl) rfl

/-- Branch-by-branch characterization of `candidateScore`. -/
theorem candidateScore_cases (input cand : List Char) (hin : input ≠ []) :
    (cand = input → candidateScore input cand = 1) ∧
    (cand ≠ input → input.isPrefixOf cand = true →
      (((cand.length : ℤ) - input.length ≤ 3 → candidateScore input cand = 0.85) ∧
       ((cand.length : ℤ) - input.length > 3 → candidateScore input cand = 0.75))) ∧
    (cand ≠ input → cand.isPrefixOf input = true →
      (((input.length : ℤ) - cand.length ≤ 3 → candidateScore input cand = 0.85) ∧
       ((input.length : ℤ) - cand.length > 3 → candidateScore input cand = 0.60))) ∧
    (input.isPrefixOf cand = false → cand.isPrefixOf input = false →
      jsTokens input ≠ [] → jsTokens cand ≠ [] →
      ((tokenOverlapScore input cand < 0.5 → candidateScore input cand = 0) ∧
       (0.5 ≤ tokenOverlapScore input cand → tokenOverlapScore input cand < 0.8 →
         candidateScore input cand = tokenOverlapScore input cand) ∧
       (0.8 ≤ tokenOverlapScore input cand →
         ∃ b : ℚ, 0 ≤ b ∧ b ≤ 0.05 ∧
           (candidateScore input cand = tokenOverlapScore input cand + b ∨
            candidateScore input cand = 1)))) := by
  refine ⟨?_, ?_, ?_, ?_⟩
  · intro he
    unfold candidateScore
    rw [if_pos he]
  · intro hne hpre
    constructor
    · intro hd
      unfold candidateScore
      rw [if_neg hne, if_pos hpre, if_pos hd]
    · intro hd
      unfold candidateScore
      rw [if_neg hne, if_pos hpre, if_neg (by linarith)]
  · intro hne hpre
    have hnp : input.isPrefixOf cand = false := by
      rw [Bool.eq_false_iff]
      intro hc
      apply hne
      have h1 := List.isPrefixOf_iff_prefix.mp hpre
      have h2 := List.isPrefixOf_iff_prefix.mp hc
      exact List.IsPrefix.eq_of_length h1 (le_antisymm h1.length_le h2.length_le)
    have hb1 : ¬ input.isPrefixOf cand = true := by rw [hnp]; intro hc; cases hc
    constructor
    · intro hd
      unfold candidateScore
      rw [if_neg hne, if_neg hb1, if_pos hpre, if_pos hd]
    · intro hd
      unfold candidateScore
      rw [if_neg hne, if_neg hb1, if_pos hpre, if_neg (by linarith)]
  · intro hp1 hp2 ht1 ht2
    have hne : cand ≠ input := by
      intro he
      subst he
      have : cand.isPrefixOf cand = true :=
        List.isPrefixOf_iff_prefix.mpr (List.prefix_refl _)
      rw [hp1] at this
      cases this
    have hb1 : ¬ input.isPrefixOf cand = true := by rw [hp1]; intro hc; cases hc
    have hb2 : ¬ cand.isPrefixOf input = true := by rw [hp2]; intro hc; cases hc
    have hguard : ¬ (jsTokens input = [] ∨ jsTokens cand = []) := by simp [ht1, ht2]
    refine ⟨?_, ?_, ?_⟩
    · intro hlt
      unfold candidateScore
      rw [if_neg hne, if_neg hb1, if_neg hb2, if_neg hguard, if_pos hlt]
    · intro hge hlt
      unfold candidateScore
      rw [if_neg hne, if_neg hb1, if_neg hb2, if_neg hguard,
        if_neg (by push_neg; exact hge), if_neg (by push_neg; linarith)]
    · intro hge
      unfold candidateScore
      rw [if_neg hne, if_neg hb1, if_neg hb2, if_neg hguard,
        if_neg (by push_neg; exact (by linarith : (0.5:ℚ) ≤ tokenOverlapScore input cand)),
        if_pos (by linarith)]
      by_cases hdpos : (cand.length : ℤ) - input.length > 0
      · rw [if_pos hdpos]
        refine ⟨min (0.05 : ℚ) ((((cand.length : ℤ) - input.length : ℤ) : ℚ) * 0.005),
          le_min (by norm_num) (mul_nonneg (by exact_mod_cast hdpos.le) (by norm_num)),
          min_le_left _ _, ?_⟩
        rcases le_or_lt (tokenOverlapScore input cand +
            min (0.05 : ℚ) ((((cand.length : ℤ) - input.length : ℤ) : ℚ) * 0.005)) 1 with hle | hgt
        · left; exact min_eq_right hle
        · right; exact min_eq_left (le_of_lt hgt)
      · rw [if_neg hdpos]
        exact ⟨0, le_refl _, by norm_num, Or.inl (by ring)⟩

/-- Monotonicity of the best-candidate fold in its accumulator score. -/
theorem bestStep_fold_ge (input : List Char) :
    ∀ (cands : List (List Char)) (acc : Option (List Char) × ℚ),
      acc.2 ≤ (cands.foldl (bestStep input) acc).2
  | [], _ => le_refl _
  | c :: rest, acc => by
    refine le_trans ?_ (bestStep_fold_ge input rest (bestStep input acc c))
    unfold bestStep
    by_cases h : candidateScore input c > acc.2
    · rw [if_pos h]; exact le_of_lt h
    · rw [if_neg h]

theorem bestStep_fold_mem (input : List Char) :
    ∀ (cands : List (List Char)) (acc : Option (List Char) × ℚ) (c : List Char),
      c ∈ cands → candidateScore input c ≤ (cands.foldl (bestStep input) acc).2
  | [], _, _, h => absurd h (List.not_mem_nil _)
  | d :: rest, acc, c, h => by
    rcases List.mem_cons.mp h with he | hm
    · subst he
      refine le_trans ?_ (bestStep_fold_ge input rest (bestStep input acc c))
      unfold bestStep
      by_cases hgt : candidateScore input c > acc.2
      · rw [if_pos hgt]
      · rw [if_neg hgt]; linarith [not_lt.mp hgt]
    · exact bestStep_fold_mem input rest (bestStep input acc d) c hm

theorem findBest_reject (input : List Char) (cands : List (List Char))
    (h : (findBestStreetNameMatch input cands).score < 0.7) :
    (findBestStreetNameMatch input cands).best = none := by
  unfold findBestStreetNameMatch at h ⊢
  by_cases hg : input = [] ∨ cands = []
  · rw [if_pos hg]
  · rw [if_neg hg] at h ⊢
    by_cases hs : (cands.foldl (bestStep input) (none, 0)).2 < 0.7
    · rw [if_pos hs]
    · rw [if_neg hs] at h
      exact absurd h hs

theorem findBest_bound (input : List Char) (cands : List (List Char))
    (hin : input ≠ []) (c : List Char) (hc : c ∈ cands) :
    candidateScore input c ≤ (findBestStreetNameMatch input cands).score := by
  unfold findBestStreetNameMatch
  have hcne : cands ≠ [] := by intro he; subst he; cases hc
  rw [if_neg (by simp [hin, hcne])]
  by_cases hs : (cands.foldl (bestStep input) (none, 0)).2 < 0.7
  · rw [if_pos hs]
    exact bestStep_fold_mem input cands (none, 0) c hc
  · rw [if_neg hs]
    exact bestStep_fold_mem input cands (none, 0) c hc


/-- The fuzzy penalty of `lookupAddress`: any returned confidence is a
base confidence (1.0 exact, 0.8 interpolated) minus exactly 0.1 when the
street was resolved by fuzzy matching. -/
theorem lookupAddress_fuzzy_penalty {loaded : Bool} {features : List AddressFeature}
    {street : String} {hn : JSNum} {g : GISLookupResult}
    {fs : List AddressFeature} {fz : Bool}
    (hres : resolveStreetFeatures loaded features street hn = some (fs, fz))
    (h : lookupAddress loaded features street hn = some g) :
    ∃ base : ℚ, (base = 1 ∨ base = 0.8) ∧
      g.confidence = (if fz = true then base - 0.1 else base) := by
  unfold lookupAddress at h
  rw [hres] at h
  simp only [] at h
  unfold lookupCore at h
  cases hfind : (fs.insertionSort featLe).find? (fun f => f.houseNumber = some hn.val) with
  | some f =>
    rw [hfind] at h
    injection h with h
    subst h
    refine ⟨1, Or.inl rfl, ?_⟩
    cases fz <;> simp <;> norm_num
  | none =>
    rw [hfind] at h
    cases hbr : findBracket hn.val none (fs.insertionSort featLe) with
    | none => rw [hbr] at h; cases h
    | some pr =>
      cases pr with
      | mk lf uf =>
        rw [hbr] at h
        injection h with h
        subst h
        refine ⟨0.8, Or.inr rfl, ?_⟩
        cases fz <;> simp <;> norm_num


/-- C4: the fuzzy street-name scorer assigns 1.0 for an exact match,
0.85 for a prefix with length difference ≤ 3, else 0.75 (candidate
longer) or 0.60 (input longer); otherwise the token-overlap score
2·|intersection| / (|tokensA| + |tokensB|), treated as 0 below 0.5 and
given a specificity bonus of at most 0.05 when ≥ 0.80; the
highest-scoring candidate is rejected below 0.7; and a lookup resolved
via fuzzy matching has its confidence reduced by exactly 0.1 relative to
the exact-street case. -/
theorem C4_fuzzy_scorer :
    (∀ input cand : List Char, input ≠ [] →
      (cand = input → candidateScore input cand = 1) ∧
      (cand ≠ input → input.isPrefixOf cand = true →
        (((cand.length : ℤ) - input.length ≤ 3 → candidateScore input cand = 0.85) ∧
         ((cand.length : ℤ) - input.length > 3 → candidateScore input cand = 0.75))) ∧
      (cand ≠ input → cand.isPrefixOf input = true →
        (((input.length : ℤ) - cand.length ≤ 3 → candidateScore input cand = 0.85) ∧
         ((input.length : ℤ) - cand.length > 3 → candidateScore input cand = 0.60))) ∧
      (input.isPrefixOf cand = false → cand.isPrefixOf input = false →
        jsTokens input ≠ [] → jsTokens cand ≠ [] →
        ((tokenOverlapScore input cand < 0.5 → candidateScore input cand = 0) ∧
         (0.5 ≤ tokenOverlapScore input cand → tokenOverlapScore input cand < 0.8 →
           candidateScore input cand = tokenOverlapScore input cand) ∧
         (0.8 ≤ tokenOverlapScore input cand →
           ∃ b : ℚ, 0 ≤ b ∧ b ≤ 0.05 ∧
             (candidateScore input cand = tokenOverlapScore input cand + b ∨
              candidateScore input cand = 1))))) ∧
    (∀ (input : List Char) (cands : List (List Char)),
      ((findBestStreetNameMatch input cands).score < 0.7 →
        (findBestStreetNameMatch input cands).best = none) ∧
      (input ≠ [] → ∀ c ∈ cands,
        candidateScore input c ≤ (findBestStreetNameMatch input cands).score)) ∧
    (∀ (loaded : Bool) (features : List AddressFeature) (street : String)
        (hn : JSNum) (g : GISLookupResult) (fs : List AddressFeature) (fz : Bool),
      resolveStreetFeatures loaded features street hn = some (fs, fz) →
      lookupAddress loaded features street hn = some g →
      ∃ base : ℚ, (base = 1 ∨ base = 0.8) ∧
        g.confidence = (if fz = true then base - 0.1 else base)) :=
  ⟨fun input cand hin => candidateScore_cases input cand hin,
   fun input cands =>
     ⟨findBest_reject input cands,
      fun hin c hc => findBest_bound input cands hin c hc⟩,
   fun _ _ _ _ _ _ _ hres h => lookupAddress_fuzzy_penalty hres h⟩

theorem C4_witness :
    "abcd".data ≠ [] ∧ "abcdef".data ≠ "abcd".data ∧
    "abcd".data.isPrefixOf "abcdef".data = true ∧
    ("abcdef".data.length : ℤ) - "abcd".data.length ≤ 3 ∧
    candidateScore "abcd".data "abcdef".data = 0.85 :=
  ⟨by decide, by decide, by decide, by decide,
   ((C4_fuzzy_scorer.1 "abcd".data "abcdef".data (by decide)).2.1
     (by decide) (by decide)).1 (by decide)⟩

/-- Specification of the bracket scan: on a sorted feature list it
returns the nearest strictly-lower and strictly-higher features. -/
theorem findBracket_spec (n : ℚ) :
    ∀ (xs : List AddressFeature), xs.Sorted featLe →
      ∀ (acc : Option AddressFeature), (∀ a, acc = some a → featKey a < n) →
      ∀ {l u : AddressFeature}, findBracket n acc xs = some (l, u) →
      featKey l < n ∧ n < featKey u ∧ u ∈ xs ∧ (l ∈ xs ∨ acc = some l) ∧
      (∀ f ∈ xs, featKey f < n → featKey f ≤ featKey l) ∧
      (∀ f ∈ xs, n < featKey f → featKey u ≤ featKey f) := by
  intro xs
  induction xs with
  | nil =>
    intro _ acc _ l u h
    cases h
  | cons f rest ih =>
    intro hs acc hacc l u h
    rw [List.sorted_cons] at hs
    unfold findBracket at h
    by_cases h1 : featKey f < n
    · rw [if_pos h1] at h
      obtain ⟨hl, hu, humem, hlmem, hmax, hmin⟩ :=
        ih hs.2 (some f) (by intro a ha; injection ha with ha; subst ha; exact h1) h
      refine ⟨hl, hu, List.mem_cons_of_mem _ humem, ?_, ?_, ?_⟩
      · rcases hlmem with hm | he
        · exact Or.inl (List.mem_cons_of_mem _ hm)
        · injection he with he
          subst he
          exact Or.inl (List.mem_cons_self _ _)
      · intro g hg hgn
        rcases List.mem_cons.mp hg with he | hm
        · subst he
          rcases hlmem with hm | he
          · exact hs.1 l hm
          · injection he with he
            rw [he]
        · exact hmax g hm hgn
      · intro g hg hgn
        rcases List.mem_cons.mp hg with he | hm
        · subst he
          exact absurd hgn (by linarith)
        · exact hmin g hm hgn
    · rw [if_neg h1] at h
      by_cases h2 : featKey f > n
      · rw [if_pos h2] at h
        cases hacceq : acc with
        | none =>
          rw [hacceq] at h
          cases h
        | some a =>
          rw [hacceq] at h
          injection h with h
          rw [Prod.mk.injEq] at h
          obtain ⟨ha, hf⟩ := h
          subst ha
          subst hf
          refine ⟨hacc _ hacceq, h2, List.mem_cons_self _ _, Or.inr rfl, ?_, ?_⟩
          · intro g hg hgn
            rcases List.mem_cons.mp hg with he | hm
            · subst he; exact absurd hgn h1
            · exact absurd hgn (by have := hs.1 g hm; unfold featLe at this; linarith)
          · intro g hg _
            rcases List.mem_cons.mp hg with he | hm
            · subst he; exact le_refl _
            · exact hs.1 g hm
      · rw [if_neg h2] at h
        obtain ⟨hl, hu, humem, hlmem, hmax, hmin⟩ := ih hs.2 acc hacc h
        refine ⟨hl, hu, List.mem_cons_of_mem _ humem, ?_, ?_, ?_⟩
        · rcases hlmem with hm | he
          · exact Or.inl (List.mem_cons_of_mem _ hm)
          · exact Or.inr he
        · intro g hg hgn
          rcases List.mem_cons.mp hg with he | hm
          · subst he; exact absurd hgn h1
          · exact hmax g hm hgn
        · intro g hg hgn
          rcases List.mem_cons.mp hg with he | hm
          · subst he; exact absurd hgn h2
          · exact hmin g hm hgn

theorem findBracket_isSome (n : ℚ) :
    ∀ (xs : List AddressFeature), xs.Sorted featLe →
      ∀ (acc : Option AddressFeature),
      ((∃ a, acc = some a ∧ featKey a < n) ∨ ∃ f ∈ xs, featKey f < n) →
      (∃ f ∈ xs, n < featKey f) →
      (findBracket n acc xs).isSome = true := by
  intro xs
  induction xs with
  | nil =>
    intro _ acc _ hup
    obtain ⟨f, hf, _⟩ := hup
    cases hf
  | cons f rest ih =>
    intro hs acc hlow hup
    rw [List.sorted_cons] at hs
    unfold findBracket
    by_cases h1 : featKey f < n
    · rw [if_pos h1]
      refine ih hs.2 (some f) (Or.inl ⟨f, rfl, h1⟩) ?_
      obtain ⟨g, hg, hgn⟩ := hup
      rcases List.mem_cons.mp hg with he | hm
      · subst he; exact absurd hgn (by linarith)
      · exact ⟨g, hm, hgn⟩
    · rw [if_neg h1]
      by_cases h2 : featKey f > n
      · rw [if_pos h2]
        rcases hlow with ⟨a, ha, _⟩ | ⟨g, hg, hgn⟩
        · rw [ha]; rfl
        · rcases List.mem_cons.mp hg with he | hm
          · subst he; exact absurd hgn h1
          · exact absurd hgn (by have := hs.1 g hm; unfold featLe at this; linarith)
      · rw [if_neg h2]
        refine ih hs.2 acc ?_ ?_
        · rcases hlow with h | ⟨g, hg, hgn⟩
          · exact Or.inl h
          · rcases List.mem_cons.mp hg with he | hm
            · subst he; exact absurd hgn h1
            · exact Or.inr ⟨g, hm, hgn⟩
        · obtain ⟨g, hg, hgn⟩ := hup
          rcases List.mem_cons.mp hg with he | hm
          · subst he; exact absurd hgn h2
          · exact ⟨g, hm, hgn⟩


/-- C5: for every street resolved in the spatial index and every house
number, an exact house-number match returns the coordinates of that
feature with confidence 1.0 (0.9 if the street was fuzzy-matched);
otherwise, with both a strictly lower and a strictly higher number
present, the result is the linear interpolation of the coordinates of
the two bracketing (nearest lower and upper) features at the fraction
(target − lower)/(upper − lower), with confidence 0.8 (0.7 if fuzzy);
with no bracketing pair the lookup returns null. -/
theorem C5_interpolation (loaded : Bool) (features : List AddressFeature) (street : String)
    (n : ℚ) (fs : List AddressFeature) (fz : Bool)
    (hres : resolveStreetFeatures loaded features street (.num n) = some (fs, fz)) :
    (∀ f ∈ fs, f.houseNumber = some (featKey f)) ∧
    ((∃ f ∈ fs, f.houseNumber = some n) →
      ∃ f ∈ fs, f.houseNumber = some n ∧
        lookupAddress loaded features street (.num n) =
          some ⟨f.lat, f.lon, if fz then 0.9 else 1.0⟩) ∧
    ((¬ ∃ f ∈ fs, f.houseNumber = some n) →
      (∃ f ∈ fs, featKey f < n) → (∃ f ∈ fs, n < featKey f) →
      ∃ lf uf, lf ∈ fs ∧ uf ∈ fs ∧ featKey lf < n ∧ n < featKey uf ∧
        (∀ f ∈ fs, featKey f < n → featKey f ≤ featKey lf) ∧
        (∀ f ∈ fs, n < featKey f → featKey uf ≤ featKey f) ∧
        lookupAddress loaded features street (.num n) =
          some ⟨lf.lat + (uf.lat - lf.lat) * ((n - featKey lf) / (featKey uf - featKey lf)),
                lf.lon + (uf.lon - lf.lon) * ((n - featKey lf) / (featKey uf - featKey lf)),
                if fz then 0.7 else 0.8⟩) ∧
    ((¬ ∃ f ∈ fs, f.houseNumber = some n) →
      ((¬ ∃ f ∈ fs, featKey f < n) ∨ (¬ ∃ f ∈ fs, n < featKey f)) →
      lookupAddress loaded features street (.num n) = none) := by
  have hmem : ∀ f ∈ fs, f.houseNumber = some (featKey f) := by
    intro f hf
    have : f.houseNumber ≠ none := by
      unfold resolveStreetFeatures at hres
      split at hres
      · cases hres
      · split at hres
        · injection hres with hres
          rw [Prod.mk.injEq] at hres
          obtain ⟨h1, _⟩ := hres
          rw [← h1] at hf
          unfold exactStreetFeatures at hf
          have := (List.mem_filter.mp hf).2
          simp at this
          exact this.2
        · split at hres
          · cases hres
          · injection hres with hres
            rw [Prod.mk.injEq] at hres
            obtain ⟨h1, _⟩ := hres
            rw [← h1] at hf
            unfold exactStreetFeatures at hf
            have := (List.mem_filter.mp hf).2
            simp at this
            exact this.2
    cases hh : f.houseNumber with
    | none => exact absurd hh this
    | some q => unfold featKey; rw [hh]; rfl
  have hperm : ∀ f : AddressFeature, f ∈ fs.insertionSort featLe ↔ f ∈ fs :=
    fun _ => (List.perm_insertionSort featLe fs).mem_iff
  have hsorted : (fs.insertionSort featLe).Sorted featLe :=
    List.sorted_insertionSort featLe fs
  have hlook : lookupAddress loaded features street (.num n) =
      lookupCore fs fz n := by
    unfold lookupAddress
    rw [hres]
    rfl
  refine ⟨hmem, ?_, ?_, ?_⟩
  · intro hex
    have hsome : ((fs.insertionSort featLe).find?
        (fun f => f.houseNumber = some n)).isSome = true := by
      rw [List.find?_isSome]
      obtain ⟨f, hf, hfn⟩ := hex
      exact ⟨f, (hperm _).mpr hf, by simp [hfn]⟩
    cases hfind : (fs.insertionSort featLe).find? (fun f => f.houseNumber = some n) with
    | none => rw [hfind] at hsome; cases hsome
    | some f =>
      refine ⟨f, (hperm _).mp (List.mem_of_find?_eq_some hfind), ?_, ?_⟩
      · have := List.find?_some hfind
        simpa using this
      · rw [hlook]
        unfold lookupCore
        rw [hfind]
  · intro hnex hlow hup
    have hfind : (fs.insertionSort featLe).find? (fun f => f.houseNumber = some n) = none := by
      rw [List.find?_eq_none]
      intro f hf
      simp only [decide_eq_true_eq]
      intro hc
      exact hnex ⟨f, (hperm _).mp hf, hc⟩
    have hbrsome : (findBracket n none (fs.insertionSort featLe)).isSome = true := by
      refine findBracket_isSome n _ hsorted none (Or.inr ?_) ?_
      · obtain ⟨f, hf, hfn⟩ := hlow
        exact ⟨f, (hperm _).mpr hf, hfn⟩
      · obtain ⟨f, hf, hfn⟩ := hup
        exact ⟨f, (hperm _).mpr hf, hfn⟩
    cases hbr : findBracket n none (fs.insertionSort featLe) with
    | none => rw [hbr] at hbrsome; cases hbrsome
    | some pr =>
      obtain ⟨lf, uf⟩ := pr
      obtain ⟨hl, hu, humem, hlmem, hmax, hmin⟩ :=
        findBracket_spec n _ hsorted none (by intro a ha; cases ha) hbr
      rcases hlmem with hlmem | he
      swap
      · cases he
      refine ⟨lf, uf, (hperm _).mp hlmem, (hperm _).mp humem, hl, hu, ?_, ?_, ?_⟩
      · intro f hf hfn
        exact hmax f ((hperm _).mpr hf) hfn
      · intro f hf hfn
        exact hmin f ((hperm _).mpr hf) hfn
      · rw [hlook]
        unfold lookupCore
        rw [hfind, hbr]
        rfl
  · intro hnex hnobracket
    have hfind : (fs.insertionSort featLe).find? (fun f => f.houseNumber = some n) = none := by
      rw [List.find?_eq_none]
      intro f hf
      simp only [decide_eq_true_eq]
      intro hc
      exact hnex ⟨f, (hperm _).mp hf, hc⟩
    have hbr : findBracket n none (fs.insertionSort featLe) = none := by
      cases hbr : findBracket n none (fs.insertionSort featLe) with
      | none => rfl
      | some pr =>
        obtain ⟨lf, uf⟩ := pr
        obtain ⟨hl, hu, humem, hlmem, _, _⟩ :=
          findBracket_spec n _ hsorted none (by intro a ha; cases ha) hbr
        rcases hlmem with hlmem | he
        swap
        · cases he
        rcases hnobracket with hnb | hnb
        · exact absurd ⟨lf, (hperm _).mp hlmem, hl⟩ hnb
        · exact absurd ⟨uf, (hperm _).mp humem, hu⟩ hnb
    rw [hlook]
    unfold lookupCore
    rw [hfind, hbr]


def oak4 : AddressFeature := ⟨"oak", "oak", some 4, 31.41, 34.60⟩

def oak8 : AddressFeature := ⟨"oak", "oak", some 8, 31.43, 34.62⟩

theorem C5_witness :
    (∃ lf uf, lf ∈ [oak4, oak8] ∧ uf ∈ [oak4, oak8] ∧
      featKey lf < 6 ∧ (6 : ℚ) < featKey uf ∧
      (∀ f ∈ [oak4, oak8], featKey f < 6 → featKey f ≤ featKey lf) ∧
      (∀ f ∈ [oak4, oak8], (6 : ℚ) < featKey f → featKey uf ≤ featKey f) ∧
      lookupAddress true [oak4, oak8] "oak" (.num 6) =
        some ⟨lf.lat + (uf.lat - lf.lat) * ((6 - featKey lf) / (featKey uf - featKey lf)),
              lf.lon + (uf.lon - lf.lon) * ((6 - featKey lf) / (featKey uf - featKey lf)),
              0.8⟩) ∧
    lookupAddress true [oak4, oak8] "oak" (.num 6) = some ⟨31.42, 34.61, 0.8⟩ := by
  constructor
  · have h := (C5_interpolation true [oak4, oak8] "oak" 6 [oak4, oak8] false
      (by with_unfolding_all rfl)).2.2.1
      (by with_unfolding_all decide)
      (by with_unfolding_all decide)
      (by with_unfolding_all decide)
    simpa using h
  · with_unfolding_all rfl




end Coordinates

namespace Coordinates

open ProcessingStatus

def statusRank : ProcessingStatus → ℕ
  | CONFIRMED => 2
  | NEEDS_REVIEW => 1
  | _ => 0

theorem rank_le_two (s : ProcessingStatus) : statusRank s ≤ 2 := by
  cases s <;> decide

theorem rank_upgrade_ge (s : ProcessingStatus) :
    statusRank s ≤ statusRank (upgradeOneStep s) := by
  cases s <;> decide

theorem condConfirm_mono (P : Prop) [Decidable P] {s s' : ProcessingStatus}
    (h : statusRank s ≤ statusRank s') :
    statusRank (if s = NEEDS_REVIEW ∧ P then CONFIRMED else s) ≤
    statusRank (if s' = NEEDS_REVIEW ∧ P then CONFIRMED else s') := by
  by_cases hp : P
  · by_cases hs : s = NEEDS_REVIEW <;> by_cases hs' : s' = NEEDS_REVIEW
    · rw [if_pos ⟨hs, hp⟩, if_pos ⟨hs', hp⟩]
    · rw [if_pos ⟨hs, hp⟩, if_neg (fun hc => hs' hc.1)]
      subst hs; cases s' <;> simp_all [statusRank]
    · rw [if_neg (fun hc => hs hc.1), if_pos ⟨hs', hp⟩]
      exact rank_le_two _
    · rw [if_neg (fun hc => hs hc.1), if_neg (fun hc => hs' hc.1)]
      exact h
  · rw [if_neg (fun hc => hp hc.2), if_neg (fun hc => hp hc.2)]; exact h

theorem autoConfirm_mono (g : HybridGeocodingResult) (ty : AddressType)
    {s s' : ProcessingStatus} (h : statusRank s ≤ statusRank s') :
    statusRank (applyAutoConfirm s g ty) ≤ statusRank (applyAutoConfirm s' g ty) := by
  unfold applyAutoConfirm
  exact condConfirm_mono _ h

theorem nomPoiConfirm_mono (g : HybridGeocodingResult) (ty : AddressType)
    {s s' : ProcessingStatus} (h : statusRank s ≤ statusRank s') :
    statusRank (applyNominatimPoiConfirm s g ty) ≤
    statusRank (applyNominatimPoiConfirm s' g ty) := by
  unfold applyNominatimPoiConfirm
  exact condConfirm_mono _ h

theorem upgrade_confirmed (g : HybridGeocodingResult) (ty : AddressType)
    (dist? : Option ℚ) :
    applyDistanceUpgrade CONFIRMED g ty dist? = CONFIRMED := by
  unfold applyDistanceUpgrade
  cases dist? with
  | none => rfl
  | some d => split_ifs <;> simp_all

theorem upgrade_pair (g : HybridGeocodingResult) (ty : AddressType)
    (s : ProcessingStatus) {d1 d2 : ℚ} (hd : d1 ≤ d2) :
    statusRank (applyDistanceUpgrade s g ty (some d2)) ≤
    statusRank (applyDistanceUpgrade s g ty (some d1)) := by
  unfold applyDistanceUpgrade
  simp only []
  by_cases hin : isWithinNetivotBounds g.lat g.lon = true
  · rw [if_pos hin, if_pos hin]
    by_cases h1 : ty = .STREET_NUMBER ∧ d2 ≤ 100 ∧ s ≠ CONFIRMED
    · rw [if_pos h1, if_pos ⟨h1.1, hd.trans h1.2.1, h1.2.2⟩]
    · rw [if_neg h1]
      by_cases h2 : (ty = .INTERSECTION ∨ ty = .POI) ∧ d2 ≤ 250 ∧ s ≠ CONFIRMED
      · have hn1 : ¬ (ty = .STREET_NUMBER ∧ d1 ≤ 100 ∧ s ≠ CONFIRMED) := by
          intro hc
          rcases h2.1 with h | h <;> rw [hc.1] at h <;> exact AddressType.noConfusion h
        rw [if_pos h2, if_neg hn1, if_pos ⟨h2.1, hd.trans h2.2.1, h2.2.2⟩]
      · rw [if_neg h2]
        by_cases g1 : ty = .STREET_NUMBER ∧ d1 ≤ 100 ∧ s ≠ CONFIRMED
        · rw [if_pos g1]; exact rank_upgrade_ge s
        · rw [if_neg g1]
          by_cases g2 : (ty = .INTERSECTION ∨ ty = .POI) ∧ d1 ≤ 250 ∧ s ≠ CONFIRMED
          · rw [if_pos g2]; exact rank_upgrade_ge s
          · rw [if_neg g2]
  · rw [if_neg hin, if_neg hin]

theorem downup_antitone (g : HybridGeocodingResult) (ty : AddressType)
    (s1 : ProcessingStatus) (cut : ℚ) {d1 d2 : ℚ} (hd : d1 ≤ d2) :
    statusRank (applyDistanceUpgrade
      (if d2 > cut ∧ s1 = CONFIRMED then NEEDS_REVIEW else s1) g ty (some d2)) ≤
    statusRank (applyDistanceUpgrade
      (if d1 > cut ∧ s1 = CONFIRMED then NEEDS_REVIEW else s1) g ty (some d1)) := by
  by_cases hs : s1 = CONFIRMED
  · subst hs
    by_cases h2 : d2 > cut
    · rw [if_pos ⟨h2, rfl⟩]
      by_cases h1 : d1 > cut
      · rw [if_pos ⟨h1, rfl⟩]; exact upgrade_pair g ty _ hd
      · rw [if_neg (fun hc => h1 hc.1), upgrade_confirmed]
        exact rank_le_two _
    · have h1 : ¬ d1 > cut ∧ True := ⟨fun hc => h2 (lt_of_lt_of_le hc hd), trivial⟩
      rw [if_neg (fun hc => h2 hc.1), if_neg (fun hc => h1.1 hc.1),
        upgrade_confirmed, upgrade_confirmed]
  · rw [if_neg (fun hc => hs hc.2), if_neg (fun hc => hs hc.2)]
    exact upgrade_pair g ty s1 hd

theorem middle_antitone (g : HybridGeocodingResult) (ty : AddressType)
    (s1 : ProcessingStatus) {d1 d2 : ℚ} (hd : d1 ≤ d2) :
    statusRank (applyDistanceUpgrade
      (applyTrustRules s1 g ty (some d2)) g ty (some d2)) ≤
    statusRank (applyDistanceUpgrade
      (applyTrustRules s1 g ty (some d1)) g ty (some d1)) := by
  unfold applyTrustRules
  by_cases hA : (ty = .INTERSECTION ∨ ty = .POI) ∧
      isWithinNetivotBounds g.lat g.lon = true ∧
      (g.source = .GIS ∨ g.source = .GOVMAP) ∧ g.confidence ≥ 0.7
  · rw [if_pos hA, if_pos hA, upgrade_confirmed, upgrade_confirmed]
  · rw [if_neg hA, if_neg hA]
    by_cases hB : ty = .STREET_NUMBER ∧ g.source = .GIS ∧
        isWithinNetivotBounds g.lat g.lon = true ∧ g.confidence ≥ 0.9
    · rw [if_pos hB, if_pos hB, upgrade_confirmed, upgrade_confirmed]
    · rw [if_neg hB, if_neg hB]
      by_cases hC : ty = .STREET_NUMBER ∧ g.source = .GOVMAP ∧
          isWithinNetivotBounds g.lat g.lon = true ∧ g.confidence ≥ 0.75
      · rw [if_pos hC, if_pos hC]
        exact downup_antitone g ty s1 3000 hd
      · rw [if_neg hC, if_neg hC]
        exact downup_antitone g ty s1 (maxAllowedDistance ty g.source) hd

def okStatus (s : ProcessingStatus) : Prop :=
  s = CONFIRMED ∨ s = NEEDS_REVIEW ∨ s = NOT_FOUND

theorem mapConf_ok (g : HybridGeocodingResult) (b : Bool) :
    okStatus (mapConfidenceToStatus g b) := by
  unfold mapConfidenceToStatus okStatus
  split_ifs <;> simp

theorem okStatus_stages (g : HybridGeocodingResult) (ty : AddressType)
    (dist? : Option ℚ) :
    okStatus (applyGeocodingResultStatus g ty dist?) := by
  have h0 : okStatus (boundsAdjustedStatus g) := by
    unfold boundsAdjustedStatus
    split_ifs
    · simp [okStatus]
    · exact mapConf_ok g _
  have h1 : okStatus (applyTrustRules (boundsAdjustedStatus g) g ty dist?) := by
    unfold applyTrustRules
    split_ifs
    · simp [okStatus]
    · simp [okStatus]
    · cases dist? with
      | none => exact h0
      | some d =>
        simp only []
        split_ifs <;> first | exact h0 | simp [okStatus]
    · cases dist? with
      | none => exact h0
      | some d =>
        simp only []
        split_ifs <;> first | exact h0 | simp [okStatus]
  have hup : ∀ s, okStatus s → okStatus (upgradeOneStep s) := by
    intro s hs
    rcases hs with h | h | h <;> subst h <;> simp [upgradeOneStep, okStatus]
  have h2 : okStatus (applyDistanceUpgrade
      (applyTrustRules (boundsAdjustedStatus g) g ty dist?) g ty dist?) := by
    unfold applyDistanceUpgrade
    cases dist? with
    | none => exact h1
    | some d =>
      simp only []
      split_ifs <;> first | exact hup _ h1 | exact h1
  have h3 : okStatus (applyAutoConfirm (applyDistanceUpgrade
      (applyTrustRules (boundsAdjustedStatus g) g ty dist?) g ty dist?) g ty) := by
    unfold applyAutoConfirm
    split_ifs <;> first | exact h2 | simp [okStatus]
  unfold applyGeocodingResultStatus applyNominatimPoiConfirm
  split_ifs <;> first | exact h3 | simp [okStatus]

/-- C7: holding the geocoding result (source, confidence, coordinates) and the
address kind fixed, the final status of applyGeocodingResult only ranges over
CONFIRMED, NEEDS_REVIEW and NOT_FOUND, and its rank (CONFIRMED = 2 above
NEEDS_REVIEW = 1 above NOT_FOUND = 0) is monotone non-increasing in the
distance between the prior coordinates of the row and the new result:
for d1 at most d2, the status at d2 is never strictly higher than at d1. -/
theorem C7_distance_monotone (g : HybridGeocodingResult) (ty : AddressType)
    (d1 d2 : ℚ) (hd : d1 ≤ d2) :
    okStatus (applyGeocodingResultStatus g ty (some d1)) ∧
    okStatus (applyGeocodingResultStatus g ty (some d2)) ∧
    statusRank (applyGeocodingResultStatus g ty (some d2)) ≤
      statusRank (applyGeocodingResultStatus g ty (some d1)) := by
  refine ⟨okStatus_stages g ty _, okStatus_stages g ty _, ?_⟩
  unfold applyGeocodingResultStatus
  exact nomPoiConfirm_mono g ty (autoConfirm_mono g ty (middle_antitone g ty _ hd))

/-- Witness for C7 at a concrete GIS result and a concrete distance pair. -/
theorem C7_witness :
    (50 : ℚ) ≤ 2000 ∧
    (okStatus (applyGeocodingResultStatus
        ⟨31.45, 34.6, 0.8, .GIS, .GIS_EXACT⟩ .STREET_NUMBER (some 50)) ∧
      okStatus (applyGeocodingResultStatus
        ⟨31.45, 34.6, 0.8, .GIS, .GIS_EXACT⟩ .STREET_NUMBER (some 2000)) ∧
      statusRank (applyGeocodingResultStatus
        ⟨31.45, 34.6, 0.8, .GIS, .GIS_EXACT⟩ .STREET_NUMBER (some 2000)) ≤
        statusRank (applyGeocodingResultStatus
          ⟨31.45, 34.6, 0.8, .GIS, .GIS_EXACT⟩ .STREET_NUMBER (some 50))) :=
  ⟨by norm_num,
    C7_distance_monotone ⟨31.45, 34.6, 0.8, .GIS, .GIS_EXACT⟩ .STREET_NUMBER
      50 2000 (by norm_num)⟩


theorem C9_counterexample :
    containsSub cityTok "רחוב הרצל 5".data = false ∧
    normalizeAddress "רחוב הרצל 5" = some "הרצל 5" ∧
    some ("הרצל 5" : String) ≠ some ("רחוב הרצל 5" : String) :=
  ⟨by with_unfolding_all rfl, by with_unfolding_all rfl, by decide⟩

/-- C9 (amended): when the generically cleaned form of the raw address
(trim, whitespace and comma normalization, replacement dictionary,
street-prefix stripping) does not contain the city token, normalizeAddress
returns exactly that cleaned form: the city-specific steps are skipped,
but the generic cleanup is still applied, so the string is not in general
returned unchanged. -/
theorem C9_no_city_generic_cleanup (raw : String)
    (h0 : raw ≠ "")
    (h1 : jsTrimList raw.data ≠ [])
    (h2 : containsSub cityTok (cleanedAddress raw) = false) :
    normalizeAddress raw = some ⟨cleanedAddress raw⟩ := by
  simp [normalizeAddress, h0, h1, h2]

theorem C9_witness :
    ("רחוב הרצל 5" : String) ≠ "" ∧
    jsTrimList "רחוב הרצל 5".data ≠ [] ∧
    containsSub cityTok (cleanedAddress "רחוב הרצל 5") = false ∧
    normalizeAddress "רחוב הרצל 5" = some ⟨cleanedAddress "רחוב הרצל 5"⟩ :=
  ⟨by decide, by with_unfolding_all decide, by with_unfolding_all rfl,
    C9_no_city_generic_cleanup "רחוב הרצל 5" (by decide)
      (by with_unfolding_all decide) (by with_unfolding_all rfl)⟩


set_option maxRecDepth 8192 in
theorem C6_counterexample :
    containsSub cityTok "רחוב רחוב רחוב הרצל 5 נתיבות".data = true ∧
    normalizeAddress "רחוב רחוב רחוב הרצל 5 נתיבות" = some "רחוב הרצל 5, נתיבות" ∧
    normalizeAddress "רחוב הרצל 5, נתיבות" = some "הרצל 5, נתיבות" ∧
    some ("הרצל 5, נתיבות" : String) ≠ some ("רחוב הרצל 5, נתיבות" : String) :=
  ⟨by with_unfolding_all rfl, by with_unfolding_all rfl,
    by with_unfolding_all rfl, by decide⟩

/-- C6 (amended): normalization is not idempotent in general, but it is
idempotent on canonical outputs; for every input x whose normalization
succeeds with a canonical result y of the shape "S N, נתיבות" such that
the cleanup stages of the pipeline fix the intermediates of y (the trim,
generic cleanup, city-part extraction, range collapse, apartment strip,
digit truncation, street/number split and street-text stages), a second
normalization returns y again: normalizeAddress y = normalizeAddress x. -/
theorem C6_idempotent_on_canonical (x y : String) (S N : List Char)
    (hS : S ≠ []) (hN : N ≠ [])
    (hdata : y.data = S ++ ' ' :: N ++ ',' :: ' ' :: cityTok)
    (hx : normalizeAddress x = some y)
    (htrim : jsTrimList y.data = y.data)
    (hclean : cleanedAddress y = y.data)
    (hct : containsSub cityTok y.data = true)
    (hidx : lastIndexOfSub cityTok y.data = some (S.length + N.length + 3))
    (hap : cityPartPre y.data (S.length + N.length + 3) = S ++ ' ' :: N)
    (hrange : rangeCollapsed (S ++ ' ' :: N) = S ++ ' ' :: N)
    (hapart : replApartment (S ++ ' ' :: N) = S ++ ' ' :: N)
    (hdig : upToLastDigit (S ++ ' ' :: N) = S ++ ' ' :: N)
    (hsplit : splitStreetNumber (S ++ ' ' :: N) = some (S, N))
    (hstrim : jsTrimList S = S)
    (hstreet : normalizeStreetTextL S = S) :
    normalizeAddress y = normalizeAddress x := by
  rw [hx]
  have hynil : y.data ≠ [] := by
    rw [hdata]; cases S <;> simp
  have hne : y ≠ "" := by
    intro hc
    apply hynil
    rw [hc]
  have hn0 : ¬ (jsTrimList y.data = []) := by rw [htrim]; exact hynil
  unfold normalizeAddress
  rw [if_neg hne, if_neg hn0, hclean, hct]
  rw [if_neg (fun hc => hc rfl)]
  rw [hidx]
  simp only []
  rw [hap, hrange, hapart, hdig]
  unfold rebuildTail
  rw [hsplit]
  simp only []
  rw [hstrim]
  rw [if_neg (by simp [hS, hN])]
  rw [hstreet]
  apply congrArg
  apply String.ext
  rw [hdata]

set_option maxRecDepth 8192 in
theorem C6_witness :
    ("הרצל".data ≠ [] ∧ ("5" : String).data ≠ [] ∧
      ("הרצל 5, נתיבות" : String).data =
        "הרצל".data ++ ' ' :: "5".data ++ ',' :: ' ' :: cityTok ∧
      normalizeAddress "רחוב הרצל 5, נתיבות" = some "הרצל 5, נתיבות" ∧
      jsTrimList ("הרצל 5, נתיבות" : String).data = ("הרצל 5, נתיבות" : String).data ∧
      cleanedAddress "הרצל 5, נתיבות" = ("הרצל 5, נתיבות" : String).data ∧
      containsSub cityTok ("הרצל 5, נתיבות" : String).data = true ∧
      lastIndexOfSub cityTok ("הרצל 5, נתיבות" : String).data =
        some ("הרצל".data.length + "5".data.length + 3) ∧
      cityPartPre ("הרצל 5, נתיבות" : String).data
        ("הרצל".data.length + "5".data.length + 3) = "הרצל".data ++ ' ' :: "5".data ∧
      rangeCollapsed ("הרצל".data ++ ' ' :: "5".data) = "הרצל".data ++ ' ' :: "5".data ∧
      replApartment ("הרצל".data ++ ' ' :: "5".data) = "הרצל".data ++ ' ' :: "5".data ∧
      upToLastDigit ("הרצל".data ++ ' ' :: "5".data) = "הרצל".data ++ ' ' :: "5".data ∧
      splitStreetNumber ("הרצל".data ++ ' ' :: "5".data) = some ("הרצל".data, "5".data) ∧
      jsTrimList "הרצל".data = "הרצל".data ∧
      normalizeStreetTextL "הרצל".data = "הרצל".data) ∧
    normalizeAddress "הרצל 5, נתיבות" = normalizeAddress "רחוב הרצל 5, נתיבות" :=
  ⟨⟨by with_unfolding_all decide, by with_unfolding_all decide,
    by with_unfolding_all rfl, by with_unfolding_all rfl,
    by with_unfolding_all rfl, by with_unfolding_all rfl,
    by with_unfolding_all rfl, by with_unfolding_all rfl,
    by with_unfolding_all rfl, by with_unfolding_all rfl,
    by with_unfolding_all rfl, by with_unfolding_all rfl,
    by with_unfolding_all rfl, by with_unfolding_all rfl,
    by with_unfolding_all rfl⟩,
    C6_idempotent_on_canonical "רחוב הרצל 5, נתיבות" "הרצל 5, נתיבות"
      "הרצל".data "5".data
      (by with_unfolding_all decide) (by with_unfolding_all decide)
      (by with_unfolding_all rfl) (by with_unfolding_all rfl)
      (by with_unfolding_all rfl) (by with_unfolding_all rfl)
      (by with_unfolding_all rfl) (by with_unfolding_all rfl)
      (by with_unfolding_all rfl) (by with_unfolding_all rfl)
      (by with_unfolding_all rfl) (by with_unfolding_all rfl)
      (by with_unfolding_all rfl) (by with_unfolding_all rfl)
      (by with_unfolding_all rfl)⟩



/-- In `geocodeRequest` for INTERSECTION/POI text, a nonempty trimmed
query always issues at least one provider call. -/
theorem geocodeRequestPoi_calls (t : String) (p g n : Option Coord)
    (h : ¬ (jsTrimList t.data = [])) :
    (geocodeRequestPoi t p g n).2 ≠ [] := by
  unfold geocodeRequestPoi
  simp only []
  rw [if_neg h]
  rcases hgn : geocodeNetivot g n with ⟨coords, tr⟩
  cases p with
  | none =>
    simp only [hgn]
    cases coords <;> simp only [] <;> (try split_ifs) <;> simp
  | some gc =>
    simp only [hgn]
    split_ifs with hin
    · simp
    · cases coords <;> simp only [] <;> (try split_ifs) <;> simp

/-- The intersection/POI pipeline on a nonempty address never returns
SKIPPED and always makes a provider call. -/
theorem poiChain (env : RowEnv) (distFn : Coord → Coord → ℚ) (row : AddressRow)
    (rawAddress : String) (ty : AddressType)
    (h : ¬ (jsTrimList (jsTrimList rawAddress.data) = [])) :
    (processIntersectionOrPoi env distFn row rawAddress ty).status ≠ SKIPPED ∧
    (processIntersectionOrPoi env distFn row rawAddress ty).calls ≠ [] := by
  unfold processIntersectionOrPoi
  simp only []
  rcases hg : geocodeRequestPoi ⟨jsTrimList rawAddress.data⟩ env.poiGovmapResp
    env.netivotGovResp env.netivotNomResp with ⟨res, calls⟩
  have hcalls : calls ≠ [] := by
    have := geocodeRequestPoi_calls ⟨jsTrimList rawAddress.data⟩ env.poiGovmapResp
      env.netivotGovResp env.netivotNomResp h
    rw [hg] at this
    exact this
  simp only [hg]
  cases res with
  | none => exact ⟨by simp, hcalls⟩
  | some gr =>
    unfold applyGeocodingResultRow
    refine ⟨?_, hcalls⟩
    intro hc
    rcases okStatus_stages gr ty (row.originalCoords.map
        (fun oc => distFn oc ⟨gr.lat, gr.lon⟩)) with ho | ho | ho <;>
      simp only [] at hc <;> rw [hc] at ho <;> exact ProcessingStatus.noConfusion ho

/-- A row whose address text is just the city name. -/
def cityOnlyRow : AddressRow := ⟨none, some "נתיבות", none, none⟩

/-- An initialized environment with no GIS features and all provider
responses empty. -/
def plainEnv : RowEnv := ⟨true, true, [], none, none, none, none, none⟩

set_option maxRecDepth 8192 in
theorem C8_counterexample :
    classifyAddressType "נתיבות" = .POI ∧
    (processRow plainEnv (fun _ _ => 0) cityOnlyRow).status = NOT_FOUND ∧
    (processRow plainEnv (fun _ _ => 0) cityOnlyRow).calls =
      [.GOVMAP_API, .GOVMAP_API, .NOMINATIM_API] ∧
    NOT_FOUND ≠ SKIPPED :=
  ⟨by with_unfolding_all rfl, by with_unfolding_all rfl,
    by with_unfolding_all rfl, by decide⟩

/-- C8 (amended): a row whose address text is just the city name is NOT
skipped: the text classifies as POI, so for every environment and
distance function processRow routes it to the intersection/POI geocoding
chain, which issues at least one provider call, and the resulting status
is never SKIPPED (with all providers empty it is NOT_FOUND with a
manual-handling message after two GovMap calls and one Nominatim call). -/
theorem C8_city_name_not_skipped (env : RowEnv) (distFn : Coord → Coord → ℚ) :
    classifyAddressType "נתיבות" = .POI ∧
    (processRow env distFn cityOnlyRow).status ≠ SKIPPED ∧
    (processRow env distFn cityOnlyRow).calls ≠ [] := by
  have hroute : processRow env distFn cityOnlyRow =
      processIntersectionOrPoi env distFn cityOnlyRow "נתיבות" .POI := by
    with_unfolding_all rfl
  have hch := poiChain env distFn cityOnlyRow "נתיבות" .POI
    (by with_unfolding_all decide)
  exact ⟨by with_unfolding_all rfl, by rw [hroute]; exact hch.1,
    by rw [hroute]; exact hch.2⟩

theorem C8_witness :
    classifyAddressType "נתיבות" = .POI ∧
    (processRow plainEnv (fun _ _ => 0) cityOnlyRow).status ≠ SKIPPED ∧
    (processRow plainEnv (fun _ _ => 0) cityOnlyRow).calls ≠ [] :=
  C8_city_name_not_skipped plainEnv (fun _ _ => 0)


end Coordinates
